import Mathlib

/-!
Verification of the growwbot backtest core.

This file is a shallow embedding, in Lean 4, of the backtest simulation
engine of the growwbot repository and of the helper functions the engine
shares with the live position monitor:

* `server/utils/fees.py` (identical copy in `server/position_monitor.py`):
  `calculate_fees`, `compute_exit_pnl`;
* `server/backtest_engine.py`: the per-bar exit check of `run_backtest`,
  the walk-forward loop, `_compute_metrics`, and the event generator;
* `server/daily_picks_backtest.py`: `_is_trading_day`, `_get_trading_days`,
  `_simulate_symbol_intraday`, `run_daily_picks_backtest`;
* `server/position_monitor.py`: `PositionMonitor._check_exit`;
* `server/backtest_cache.py`: `get_candles`.

Modelling conventions:

* Python floats are modelled by `ℚ` (exact arithmetic); `round(x, k)` is
  modelled by round-half-to-even at `k` decimal digits, which is Python's
  rounding mode on exact decimal values.
* Unix timestamps and calendar dates are `ℕ`.  ISO date strings compare
  lexicographically exactly as their day numbers compare, so the engine's
  string comparisons on dates are modelled by `≤` on `ℕ`.  A date is the
  number of days since 1970-01-01 (a Thursday), so Python's
  `weekday()` (Monday = 0) is `(d + 3) % 7`.
* Python dict access that may fail (`point["time"]`) is modelled with
  `Option` fields and an `Except` result; exceptions raised by a generator
  are modelled as an `Except.error` outcome next to the list of events the
  generator yielded before raising.
* The strategy evaluator object (`algo.set_runtime_params` followed by
  `algo.evaluate`) is modelled as a pure function receiving the capital
  and risk parameters explicitly; an evaluator that raises is modelled as
  one returning `none` (both engines catch evaluator exceptions and treat
  them as no-signal).
-/

/-- One OHLCV bar, as normalized by `backtest_cache._normalize_candle`.
The `open` key of the Python dict is called `open_p` because `open` is a
Lean keyword. -/
structure Candle where
  time : ℕ
  open_p : ℚ
  high : ℚ
  low : ℚ
  close : ℚ
  volume : ℕ
  open_interest : ℕ
deriving DecidableEq

/-- Order side, `"BUY"` or `"SELL"`. -/
inductive Side where
  | BUY
  | SELL
deriving DecidableEq

/-- Trade-type policy, `"INTRADAY"` or `"DELIVERY"`. -/
inductive TradeType where
  | INTRADAY
  | DELIVERY
deriving DecidableEq

/-- Exit trigger labels used by the engines and the monitor. -/
inductive Trigger where
  | TARGET
  | SL
  | TIME_EXIT
  | EOD
deriving DecidableEq

/-- Signal action: the engines only check for `"BUY"`. -/
inductive SignalAction where
  | BUY
  | SKIP
deriving DecidableEq

/-- Round a rational to the nearest integer, ties to even: the rounding
mode of Python's `round` on exact decimal inputs. -/
def roundHalfEven (q : ℚ) : ℤ :=
  let f := ⌊q⌋
  if q - f < 1/2 then f
  else if 1/2 < q - f then f + 1
  else if f % 2 = 0 then f else f + 1

/-- Python's `round(q, k)`. -/
def round_dp (k : ℕ) (q : ℚ) : ℚ :=
  (roundHalfEven (q * 10 ^ k) : ℚ) / 10 ^ k

/-- Python's `round(q, 2)`. -/
def round2 (q : ℚ) : ℚ := round_dp 2 q

/-- The fee schedule, `DEFAULT_FEE_CONFIG` and overrides
(`server/utils/fees.py` lines 10-18). -/
structure FeeConfig where
  brokerage_per_order : ℚ
  stt_intraday_sell_rate : ℚ
  stt_delivery_rate : ℚ
  exchange_txn_rate : ℚ
  sebi_rate : ℚ
  stamp_duty_rate : ℚ
  gst_rate : ℚ

/-- Port of `DEFAULT_FEE_CONFIG` of `server/utils/fees.py` (identical in
`server/position_monitor.py`). -/
def DEFAULT_FEE_CONFIG : FeeConfig where
  brokerage_per_order := 20
  stt_intraday_sell_rate := 25 / 100000
  stt_delivery_rate := 1 / 1000
  exchange_txn_rate := 345 / 10000000
  sebi_rate := 1 / 1000000
  stamp_duty_rate := 3 / 100000
  gst_rate := 18 / 100

/-- Port of `calculate_fees` (`server/utils/fees.py` lines 21-59): total fee for a
single order, rounded to 2 decimals.  The Python function returns a dict
`{"total": ...}`; we return the total directly.  Note the brokerage
percentage `0.0003` is a literal in the source, not a config entry. -/
def calculate_fees (price : ℚ) (qty : ℕ) (side : Side) (trade_type : TradeType)
    (config : FeeConfig) : ℚ :=
  let turnover := price * qty
  let brokerage := min config.brokerage_per_order (turnover * (3 / 10000))
  let stt :=
    match trade_type with
    | TradeType.INTRADAY =>
        if side = Side.SELL then turnover * config.stt_intraday_sell_rate else 0
    | TradeType.DELIVERY => turnover * config.stt_delivery_rate
  let exchange_txn := turnover * config.exchange_txn_rate
  let sebi := turnover * config.sebi_rate
  let stamp_duty := if side = Side.BUY then turnover * config.stamp_duty_rate else 0
  let gst := (brokerage + exchange_txn + sebi) * config.gst_rate
  round2 (brokerage + stt + exchange_txn + sebi + stamp_duty + gst)

/-- Port of `compute_exit_pnl` (`server/utils/fees.py` lines 62-81, identical in
`server/position_monitor.py`): `(net_pnl, total_fees)` for a round trip,
each rounded to 2 decimals, with the default fee config. -/
def compute_exit_pnl (entry_price exit_price : ℚ) (quantity : ℕ)
    (trade_type : TradeType) : ℚ × ℚ :=
  let gross := (exit_price - entry_price) * quantity
  let fees_entry := calculate_fees entry_price quantity Side.BUY trade_type DEFAULT_FEE_CONFIG
  let fees_exit := calculate_fees exit_price quantity Side.SELL trade_type DEFAULT_FEE_CONFIG
  let total_fees := fees_entry + fees_exit
  (round2 (gross - total_fees), round2 total_fees)

/-- Per-bar exit check of the single-symbol engine
(`server/backtest_engine.py` lines 220-242).  The source reads
`open_p = candle.get("open", entry)`; normalized candles always carry an
`open` key, so the default never fires and the check does not depend on
the entry price. -/
def engine_exit_check (sl target : ℚ) (c : Candle) : Option (ℚ × Trigger) :=
  if target ≤ c.high ∧ c.low ≤ sl then
    if |target - c.open_p| ≤ |c.open_p - sl| then some (target, Trigger.TARGET)
    else some (sl, Trigger.SL)
  else if target ≤ c.high then some (target, Trigger.TARGET)
  else if c.low ≤ sl then some (sl, Trigger.SL)
  else none

/-- Per-bar SL/target exit check of the daily-picks engine
(`server/daily_picks_backtest.py` lines 85-109), before its time-based
exit is considered. -/
def dp_exit_check (entry sl target : ℚ) (c : Candle) : Option (ℚ × Trigger) :=
  let is_long := sl < entry
  if is_long then
    if c.low ≤ sl then some (sl, Trigger.SL)
    else if target ≤ c.high then some (target, Trigger.TARGET)
    else none
  else
    if sl ≤ c.high then some (sl, Trigger.SL)
    else if c.low ≤ target then some (target, Trigger.TARGET)
    else none

/-- Tick-based exit check of the live monitor,
`PositionMonitor._check_exit` (`server/position_monitor.py` lines
204-221), reduced to the trigger decision (the rest of the method places
the sell order). -/
def monitor_check_exit (entry sl target ltp : ℚ) : Option Trigger :=
  let is_long := sl < entry
  if is_long then
    if ltp ≤ sl then some Trigger.SL
    else if target ≤ ltp then some Trigger.TARGET
    else none
  else
    if sl ≤ ltp then some Trigger.SL
    else if ltp ≤ target then some Trigger.TARGET
    else none

/-! Section: Candle cache (`server/backtest_cache.py`)

The SQLite table keyed by `(groww_symbol, segment, interval, date)` is
modelled, for one fixed `(symbol, segment, interval)`, as an association
list from the calendar date (a day number) to that day's candle bucket.
The data source `groww.get_historical_candles` is a function from a
chunk's first and last day to the raw rows of the response; wire-shape
normalization (`_normalize_candle`) is folded into it, and
`_parse_candles_response` keeps its positive-price filter. -/

/-- A persisted cache: day number to candle bucket. -/
abbrev CacheStore : Type := List (ℕ × List Candle)

/-- SQL `SELECT` by date key (first match). -/
def store_lookup : CacheStore → ℕ → Option (List Candle)
  | [], _ => none
  | e :: es, d => if e.1 = d then some e.2 else store_lookup es d

/-- SQL `INSERT OR REPLACE` on the date key. -/
def store_insert : CacheStore → ℕ → List Candle → CacheStore
  | [], k, v => [(k, v)]
  | e :: es, k, v => if e.1 = k then (k, v) :: es else e :: store_insert es k v

/-- Port of `_parse_candles_response` (`backtest_cache.py` lines 125-133): keep
rows whose open and close are positive. -/
def parse_candles (raw : List Candle) : List Candle :=
  raw.filter fun c => decide (0 < c.open_p) && decide (0 < c.close)

/-- UTC calendar day of a unix timestamp
(`datetime.utcfromtimestamp(...).strftime` day bucketing). -/
def day_of (c : Candle) : ℕ := c.time / 86400

/-- Keys in first-occurrence order, like a Python dict built by
`defaultdict` insertion. -/
def first_occ_keys (l : List ℕ) : List ℕ :=
  l.foldl (fun acc d => if d ∈ acc then acc else acc ++ [d]) []

/-- Stable insertion into a time-sorted list (used to model Python's
stable `list.sort(key=lambda x: x["time"])`). -/
def insert_by_time (c : Candle) : List Candle → List Candle
  | [] => [c]
  | x :: xs => if x.time ≤ c.time then x :: insert_by_time c xs else c :: x :: xs

/-- Stable sort by candle time. -/
def sort_by_time (l : List Candle) : List Candle :=
  l.foldl (fun acc c => insert_by_time c acc) []

/-- The `by_date` grouping of fetched rows (`backtest_cache.py` lines
253-263): split by the candle's own UTC day, each day's list sorted by
time. -/
def group_by_day (rows : List Candle) : List (ℕ × List Candle) :=
  (first_occ_keys (rows.map day_of)).map fun k =>
    (k, sort_by_time (rows.filter fun c => day_of c = k))

/-- Dedupe by exact timestamp keeping the first occurrence
(`backtest_cache.py` lines 290-297). -/
def dedupe_by_time (l : List Candle) : List Candle :=
  (l.foldl
    (fun (acc : List Candle × List ℕ) c =>
      if c.time ∈ acc.2 then acc else (acc.1 ++ [c], acc.2 ++ [c.time]))
    ([], [])).1

/-- In-flight state of `get_candles`: the in-memory `cached_by_date`
dict, the persisted store, and the number of fetch calls issued. -/
structure FetchState where
  map : CacheStore
  store : CacheStore
  count : ℕ

/-- The in-memory `cached_by_date` dict loaded from the store
(`backtest_cache.py` lines 175-190): one entry per requested date found
in the store. -/
def load_cached (store : CacheStore) (dates : List ℕ) : CacheStore :=
  dates.foldl
    (fun m d =>
      match store_lookup store d with
      | some v => store_insert m d v
      | none => m)
    []

/-- The chunked fetch loop of `get_candles` (`backtest_cache.py` lines
195-283).  `missing` is the ascending list of dates absent from the
store; each iteration requests one chunk `[chunk_start, chunk_end]`
bounded by `max_days` and by the last missing date, splits the parsed
rows by their own calendar day, and writes each day bucket to both the
in-memory dict and the store.  The loop consumes at least the first
missing date per iteration, so fuel `missing.length` is enough; the fuel
argument only makes the recursion structural. -/
def fetch_missing (fetch : ℕ → ℕ → List Candle) (max_days : ℕ)
    (missing_last : ℕ) : ℕ → List ℕ → FetchState → FetchState
  | 0, _, st => st
  | _ + 1, [], st => st
  | fuel + 1, d :: ds, st =>
    let max_chunk_end := min (d + max_days - 1) missing_last
    let chunk_end := (((d :: ds).takeWhile fun x => x ≤ max_chunk_end).getLast?).getD d
    let rows := parse_candles (fetch d chunk_end)
    let groups := group_by_day rows
    let map' := groups.foldl (fun m g => store_insert m g.1 g.2) st.map
    let store' := groups.foldl (fun s g => store_insert s g.1 g.2) st.store
    let rest := (d :: ds).dropWhile fun x => x ≤ chunk_end
    fetch_missing fetch max_days missing_last fuel rest ⟨map', store', st.count + 1⟩

/-- Result of `get_candles`: the candle list it returns, the store it
leaves behind, and how many fetch calls it issued. -/
structure GetCandlesResult where
  result : List Candle
  store : CacheStore
  fetch_count : ℕ
deriving DecidableEq

/-- The calendar days of the inclusive range `[start_date, end_date]`
(`backtest_cache.py` lines 168-173). -/
def all_dates (start_date end_date : ℕ) : List ℕ :=
  List.range' start_date (end_date + 1 - start_date)

/-- Cache-read plus chunked-fetch phase of `get_candles`: the state after
loading the requested day buckets and fetching whatever is missing.  The
`missing` list is nonempty exactly when Python enters the
`if missing_dates:` branch; fuel `missing.length` is enough for the
chunk loop. -/
def gc_state (fetch : ℕ → ℕ → List Candle) (max_days : ℕ)
    (store : CacheStore) (start_date end_date : ℕ) : FetchState :=
  let dates := all_dates start_date end_date
  let cached0 := load_cached store dates
  let missing := dates.filter fun d => (store_lookup store d).isNone
  if hm : missing = [] then ⟨cached0, store, 0⟩
  else fetch_missing fetch max_days (missing.getLast hm) missing.length missing
      ⟨cached0, store, 0⟩

/-- Port of `get_candles` (`backtest_cache.py` lines 141-298) for one fixed
`(symbol, segment, interval)`: enumerate the calendar days of the range,
read cached day buckets, fetch the missing days in chunks of at most
`max_days`, persist the fetched buckets, then merge, sort by time and
dedupe. -/
def get_candles (fetch : ℕ → ℕ → List Candle) (max_days : ℕ)
    (store : CacheStore) (start_date end_date : ℕ) : GetCandlesResult :=
  if end_date < start_date then ⟨[], store, 0⟩
  else
    let st := gc_state fetch max_days store start_date end_date
    let merged := (all_dates start_date end_date).foldl
      (fun acc d => acc ++ ((store_lookup st.map d).getD [])) []
    ⟨dedupe_by_time (sort_by_time merged), st.store, st.count⟩

/-! Section: Single-symbol walk-forward engine (`server/backtest_engine.py`) -/

/-- A daily-picks candidate row (the fields the engines read:
`symbol`, the `high_conviction` flag and `day_change_pct`; all other
screener metadata is opaque to the engines). -/
structure Candidate where
  symbol : String
  high_conviction : Bool
  day_change_pct : ℚ
deriving DecidableEq

/-- The `candidate_info` dict passed to the evaluator: the current bar's
fields plus, in the daily-picks engine, the candidate row merged in. -/
structure CandidateInfo where
  symbol : String
  open_p : ℚ
  high : ℚ
  low : ℚ
  close : ℚ
  volume : ℕ
  open_interest : ℕ
  candidate : Option Candidate
deriving DecidableEq

/-- The evaluator's output (`AlgoSignal`); only the fields the engines
consume. -/
structure AlgoSignal where
  action : SignalAction
  entry_price : ℚ
  stop_loss : ℚ
  target : ℚ
  quantity : ℕ
  reason : String
deriving DecidableEq

/-- The strategy evaluator contract: `set_runtime_params(capital,
risk_percent)` followed by `evaluate(symbol, candle_history,
current_price, candidate_info)`, as one pure function.  An evaluator
that raises is modelled as returning `none`: both engines wrap the call
in `try/except` and treat an exception as no signal. -/
def AlgoEval : Type :=
  ℚ → ℚ → String → List Candle → ℚ → CandidateInfo → Option AlgoSignal

/-- An open simulated position. -/
structure Position where
  entry_price : ℚ
  stop_loss : ℚ
  target : ℚ
  quantity : ℕ
  entry_time : ℕ
  trade_type : TradeType
  reason : String
deriving DecidableEq

/-- A closed round trip.  `symbol` and `date` are present only in
daily-picks trades (the single-symbol engine's trade dict has neither
key), hence the `Option`. -/
structure ClosedTrade where
  symbol : Option String
  entry_price : ℚ
  exit_price : ℚ
  quantity : ℕ
  entry_time : ℕ
  exit_time : ℕ
  pnl : ℚ
  fees : ℚ
  exit_trigger : Trigger
  reason : String
  date : Option ℕ
deriving DecidableEq

/-- An equity-curve point: the single-symbol engine writes
`{"time": ..., "equity": ...}`, the daily-picks engine writes
`{"date": ..., "equity": ..., "daily_pnl": ..., "daily_fees": ...}`.
Absent dict keys are `none`. -/
structure EquityPoint where
  time : Option ℕ
  date : Option ℕ
  equity : ℚ
  daily_pnl : Option ℚ
  daily_fees : Option ℚ
deriving DecidableEq

/-- Ghost record of one evaluator invocation: the bar index and the
candle history and current price passed to `algo.evaluate`. -/
structure EvalCall where
  bar : ℕ
  history : List Candle
  price : ℚ
deriving DecidableEq

/-- Python exceptions that escape the embedded code. -/
inductive PyErr where
  | unboundLocalError (name : String)
  | keyError (key : String)
deriving DecidableEq

/-- Result dict `BacktestMetrics` of `_compute_metrics`
(`backtest_engine.py` lines 133-154).  The source's `sharpe_ratio` and
`sortino_ratio` are `mean/std * sqrt(252)` and
`mean/downside_std * sqrt(252)` (both 0 when the denominator is 0,
rounded to 4 decimals); square roots are irrational, so the structure
carries their rational precursors (`mean_daily_return`,
`variance_daily_return`, `downside_variance_daily_return`) instead. -/
structure BacktestMetrics where
  initial_capital : ℚ
  final_equity : ℚ
  total_return_pct : ℚ
  total_fees : ℚ
  net_pnl : ℚ
  trade_count : ℕ
  wins : ℕ
  losses : ℕ
  win_rate_pct : ℚ
  profit_factor : Option ℚ
  expectancy : ℚ
  max_drawdown : ℚ
  max_drawdown_pct : ℚ
  mean_daily_return : ℚ
  variance_daily_return : ℚ
  downside_variance_daily_return : ℚ
  avg_win : ℚ
  avg_loss : ℚ
  best_trade : ℚ
  worst_trade : ℚ
  avg_duration_seconds : ℚ
deriving DecidableEq

/-- Streaming events yielded by the engines (the SSE vocabulary). Only
the claim-relevant payload fields are modelled. -/
inductive BTEvent where
  | progress (percent : ℚ) (bars_processed total_bars : ℕ)
  | trade (t : ClosedTrade)
  | complete (metrics : Option BacktestMetrics) (trades : List ClosedTrade) (curve : List EquityPoint) (error : Option String)
  | day_start (date : ℕ) (candidates_count : ℕ)
  | day_complete (date : ℕ) (daily_pnl daily_fees : ℚ) (trades_count : ℕ)
  | error_event (msg : String)
deriving DecidableEq

/-- Walk-forward state of `run_backtest`'s loop (`backtest_engine.py`
lines 213-306): the open position, closed trades, equity curve, realized
PnL, the events yielded so far, and the ghost log of evaluator calls. -/
structure BTState where
  pos : Option Position
  trades : List ClosedTrade
  curve : List EquityPoint
  realized : ℚ
  events : List BTEvent
  calls : List EvalCall
deriving DecidableEq

/-- Initial loop state: flat, no trades, empty curve, zero realized
PnL. -/
def init_bt_state : BTState :=
  ⟨none, [], [], 0, [], []⟩

/-- Exit phase of one loop iteration (`backtest_engine.py` lines
220-265): if a position is open and the bar triggers an exit, close it,
book the PnL and yield a `trade` event. -/
def bt_exit_phase (c : Candle) (s : BTState) : BTState :=
  match s.pos with
  | none => s
  | some p =>
    match engine_exit_check p.stop_loss p.target c with
    | none => s
    | some xp =>
      let res := compute_exit_pnl p.entry_price xp.1 p.quantity p.trade_type
      let closed : ClosedTrade :=
        ⟨none, p.entry_price, xp.1, p.quantity, p.entry_time, c.time,
          res.1, res.2, xp.2, p.reason, none⟩
      { s with
          pos := none
          trades := s.trades ++ [closed]
          realized := s.realized + res.1
          events := s.events ++ [BTEvent.trade closed] }

/-- Equity-curve phase (`backtest_engine.py` line 267): append one point
with the realized equity after any just-processed exit. -/
def bt_mark_phase (initial_capital : ℚ) (c : Candle) (s : BTState) : BTState :=
  { s with curve := s.curve ++
      [⟨some c.time, none, initial_capital + s.realized, none, none⟩] }

/-- Entry phase (`backtest_engine.py` lines 269-295): when flat and past
the 30-bar warm-up, call the evaluator with the history `candles[:i+1]`
and open a position on a BUY signal.  The ghost `calls` log records the
invocation. -/
def bt_entry_phase (algo : AlgoEval) (groww_symbol : String)
    (initial_capital risk_percent : ℚ) (max_positions : ℕ)
    (candles : List Candle) (i : ℕ) (c : Candle) (s : BTState) : BTState :=
  if s.pos = none ∧ 30 ≤ i then
    match algo (initial_capital + s.realized) risk_percent groww_symbol
        (candles.take (i + 1)) c.close
        ⟨groww_symbol, c.open_p, c.high, c.low, c.close, c.volume, c.open_interest, none⟩ with
    | none => { s with calls := s.calls ++ [⟨i, candles.take (i + 1), c.close⟩] }
    | some sig =>
      if sig.action = SignalAction.BUY ∧ 1 ≤ max_positions then
        { s with
            pos := some ⟨sig.entry_price, sig.stop_loss, sig.target,
              sig.quantity, c.time, TradeType.INTRADAY, sig.reason⟩
            calls := s.calls ++ [⟨i, candles.take (i + 1), c.close⟩] }
      else { s with calls := s.calls ++ [⟨i, candles.take (i + 1), c.close⟩] }
  else s

/-- Progress phase (`backtest_engine.py` lines 297-306): every
`max(1, total_bars // 20)` bars and on the final bar, yield a progress
event. -/
def bt_progress_phase (total_bars i : ℕ) (s : BTState) : BTState :=
  if 0 < total_bars ∧ (i % max 1 (total_bars / 20) = 0 ∨ i = total_bars - 1) then
    { s with events := s.events ++
        [BTEvent.progress (round_dp 1 (((i : ℚ) + 1) / total_bars * 100)) (i + 1) total_bars] }
  else s

/-- The body of `run_backtest`'s `for i, candle in enumerate(candles)`
loop (`backtest_engine.py` lines 218-306) for one bar: the four phases
in source order. -/
def run_backtest_step (algo : AlgoEval) (groww_symbol : String)
    (initial_capital risk_percent : ℚ) (max_positions : ℕ)
    (candles : List Candle) (total_bars i : ℕ) (c : Candle)
    (s : BTState) : BTState :=
  bt_progress_phase total_bars i
    (bt_entry_phase algo groww_symbol initial_capital risk_percent max_positions candles i c
      (bt_mark_phase initial_capital c
        (bt_exit_phase c s)))

/-- The walk-forward loop: process the remaining candles starting at bar
index `i`. -/
def run_backtest_loop (algo : AlgoEval) (groww_symbol : String)
    (initial_capital risk_percent : ℚ) (max_positions : ℕ)
    (candles : List Candle) (total_bars : ℕ) :
    ℕ → List Candle → BTState → BTState
  | _, [], s => s
  | i, c :: cs, s =>
    run_backtest_loop algo groww_symbol initial_capital risk_percent max_positions
      candles total_bars (i + 1) cs
      (run_backtest_step algo groww_symbol initial_capital risk_percent max_positions
        candles total_bars i c s)

/-- The full walk-forward simulation over a candle series. -/
def bt_sim (algo : AlgoEval) (groww_symbol : String)
    (initial_capital risk_percent : ℚ) (max_positions : ℕ)
    (candles : List Candle) : BTState :=
  run_backtest_loop algo groww_symbol initial_capital risk_percent max_positions
    candles candles.length 0 candles init_bt_state

/-- Outcome of a generator: the events it yielded, and whether it
returned normally or raised. -/
structure GenRun where
  events : List BTEvent
  outcome : Except PyErr Unit

/-- Port of `run_backtest` (`backtest_engine.py` lines 157-332) as an event
generator.  Date validation compares ISO date strings, modelled by `≤`
on day numbers; the candle series is the `cache_get_candles` result,
taken as a parameter.  After the last bar the source calls `_dbg` (line
311) with `list(signal_analysis.keys())` among its arguments, but
`signal_analysis` is a local variable first assigned at line 323, so the
generator raises `UnboundLocalError` there, before `_compute_metrics`
and before the final `complete` event can be yielded. -/
def run_backtest (algo : AlgoEval) (groww_symbol : String)
    (start_date end_date today : ℕ) (candles : List Candle)
    (initial_capital risk_percent : ℚ) (max_positions : ℕ) : GenRun :=
  if end_date < start_date then
    ⟨[BTEvent.complete none [] [] (some "Start date must be before or equal to end date.")],
      Except.ok ()⟩
  else if today < end_date then
    ⟨[BTEvent.complete none [] [] (some "End date cannot be in the future.")], Except.ok ()⟩
  else if candles = [] then
    ⟨[BTEvent.complete none [] [] (some "No candle data for the given range.")], Except.ok ()⟩
  else
    let s := bt_sim algo groww_symbol initial_capital risk_percent max_positions candles
    ⟨s.events, Except.error (PyErr.unboundLocalError "signal_analysis")⟩

/-- Total net PnL of a list of closed trades. -/
def sum_pnl (l : List ClosedTrade) : ℚ := (l.map ClosedTrade.pnl).sum

/-- Returns `true` exactly on `complete` events. -/
def is_complete_event : BTEvent → Bool
  | BTEvent.complete _ _ _ _ => true
  | _ => false

/-- The per-prefix invariant of the walk-forward loop: one curve point
per processed bar, `realized` equal to the booked PnL, every trade closed
at some processed bar's time, and every curve point carrying the initial
capital plus the PnL of the trades closed at or before its bar. -/
def bt_inv (initial_capital : ℚ) (P : List Candle) (s : BTState) : Prop :=
  s.curve.length = P.length ∧
  s.realized = sum_pnl s.trades ∧
  (∀ t ∈ s.trades, ∃ cp ∈ P, t.exit_time = cp.time) ∧
  (∀ i p c, s.curve.get? i = some p → P.get? i = some c →
      p.equity = initial_capital
        + sum_pnl (s.trades.filter fun t => decide (t.exit_time ≤ c.time)))

/-- Python dict update preserving first-insertion order, last value
wins (`daily_equity[day_key] = equity`). -/
def assoc_update : List (ℕ × ℚ) → ℕ → ℚ → List (ℕ × ℚ)
  | [], k, v => [(k, v)]
  | e :: es, k, v => if e.1 = k then (k, v) :: es else e :: assoc_update es k v

/-- Insertion into an ascending list of day keys (`sorted(...)`). -/
def insert_nat (n : ℕ) : List ℕ → List ℕ
  | [] => [n]
  | x :: xs => if x ≤ n then x :: insert_nat n xs else n :: x :: xs

/-- Ascending sort of the day keys. -/
def sort_nat (l : List ℕ) : List ℕ :=
  l.foldl (fun acc n => insert_nat n acc) []

/-- Day-over-day percentage returns of consecutive equity values, with
the source's `prev_eq > 0` guard (`backtest_engine.py` lines 108-113). -/
def consecutive_returns : List ℚ → List ℚ
  | [] => []
  | [_] => []
  | a :: b :: rest =>
    (if 0 < a then [(b - a) / a] else []) ++ consecutive_returns (b :: rest)

/-- Port of `_compute_metrics` (`backtest_engine.py` lines 32-154).  The daily
Sharpe/Sortino bucketing reads `point["time"]` for every equity-curve
point (line 104); a point without a `time` key raises `KeyError`, which
the `Except` models.  On an empty trade list the source's explicit
zero branch produces the same values as the general formulas (empty sums
are zero and each average is guarded), so the formulas are used
directly. -/
def compute_metrics (initial_capital : ℚ) (trades : List ClosedTrade)
    (equity_curve : List EquityPoint) : Except PyErr BacktestMetrics :=
  let total_pnl := sum_pnl trades
  let total_fees := (trades.map ClosedTrade.fees).sum
  let win_list := (trades.filter fun t => decide (0 < t.pnl)).map ClosedTrade.pnl
  let loss_list := (trades.filter fun t => decide (t.pnl < 0)).map ClosedTrade.pnl
  let wins := (trades.filter fun t => decide (0 < t.pnl)).length
  let losses := (trades.filter fun t => decide (t.pnl ≤ 0)).length
  let gross_profit := win_list.sum
  let gross_loss := loss_list.sum
  let avg_win := if win_list.length = 0 then 0 else win_list.sum / win_list.length
  let avg_loss := if loss_list.length = 0 then 0 else loss_list.sum / loss_list.length
  let best_trade :=
    match trades.map ClosedTrade.pnl with
    | [] => 0
    | x :: xs => xs.foldl max x
  let worst_trade :=
    match trades.map ClosedTrade.pnl with
    | [] => 0
    | x :: xs => xs.foldl min x
  let durations := trades.map fun t => ((t.exit_time : ℚ) - (t.entry_time : ℚ))
  let avg_duration := if durations.length = 0 then 0 else durations.sum / durations.length
  let final_equity0 := if trades = [] then initial_capital else initial_capital + total_pnl
  let final_equity :=
    match equity_curve.getLast? with
    | some p => p.equity
    | none => final_equity0
  let total_return_pct :=
    if 0 < initial_capital then (final_equity - initial_capital) / initial_capital * 100 else 0
  let win_rate := if trades = [] then 0 else (wins : ℚ) / (trades.length : ℚ) * 100
  let profit_factor : Option ℚ :=
    if gross_loss < 0 then some (round_dp 4 (gross_profit / |gross_loss|))
    else if 0 < gross_profit then none
    else some 0
  let expectancy :=
    if trades = [] then 0
    else avg_win * ((wins : ℚ) / (trades.length : ℚ))
      + avg_loss * ((losses : ℚ) / (trades.length : ℚ))
  let dd := equity_curve.foldl
    (fun (acc : ℚ × ℚ × ℚ) point =>
      let peak := if acc.1 < point.equity then point.equity else acc.1
      let ddv := peak - point.equity
      let md := if acc.2.1 < ddv then ddv else acc.2.1
      let mdp :=
        if 0 < peak then
          (if acc.2.2 < ddv / peak * 100 then ddv / peak * 100 else acc.2.2)
        else acc.2.2
      (peak, md, mdp))
    (initial_capital, 0, 0)
  match equity_curve.foldlM
      (fun (m : List (ℕ × ℚ)) point =>
        match point.time with
        | none => Except.error (PyErr.keyError "time")
        | some t => Except.ok (assoc_update m (t / 86400) point.equity))
      ([] : List (ℕ × ℚ)) with
  | Except.error e => Except.error e
  | Except.ok buckets =>
    let sorted_days := sort_nat (buckets.map Prod.fst)
    let day_equities := sorted_days.map fun d =>
      (buckets.lookup d).getD 0
    let daily_returns := consecutive_returns day_equities
    let n := daily_returns.length
    let mean := if n = 0 then 0 else daily_returns.sum / n
    let variance :=
      if n = 0 then 0 else ((daily_returns.map fun r => ((r - mean) ^ 2 : ℚ)).sum) / n
    let downside := daily_returns.filter fun r => decide (r < 0)
    let downside_variance :=
      if downside.length = 0 then 0
      else ((downside.map fun r => ((r ^ 2 : ℚ))).sum) / downside.length
    Except.ok
      ⟨initial_capital, round2 final_equity, round2 total_return_pct, round2 total_fees,
        round2 total_pnl, trades.length, wins, losses, round2 win_rate, profit_factor,
        round2 expectancy, round2 dd.2.1, round2 dd.2.2, mean, variance, downside_variance,
        round2 avg_win, round2 avg_loss, round2 best_trade, round2 worst_trade,
        round_dp 1 avg_duration⟩

/-! Section: Daily-picks engine (`server/daily_picks_backtest.py`) -/

/-- Port of `_is_trading_day` (`daily_picks_backtest.py` lines 27-33): Monday to
Friday; no holiday calendar.  `d` is days since 1970-01-01 (a Thursday),
so Python's `weekday()` is `(d + 3) % 7`. -/
def is_trading_day (d : ℕ) : Bool := decide ((d + 3) % 7 < 5)

/-- Port of `_get_trading_days` (`daily_picks_backtest.py` lines 36-48). -/
def get_trading_days (start_date end_date : ℕ) : List ℕ :=
  (List.range' start_date (end_date + 1 - start_date)).filter is_trading_day

/-- State of one `_simulate_symbol_intraday` walk-forward loop. -/
structure SimState where
  pos : Option Position
  trades : List ClosedTrade
  calls : List EvalCall
deriving DecidableEq

/-- The daily-picks per-bar exit decision including the time-based exit
(`daily_picks_backtest.py` lines 93-118): SL/target check first, then
`TIME_EXIT` at the close when the position is at least
`max_trade_duration_minutes` old. -/
def dp_check_with_time (max_trade_duration_minutes : ℕ) (p : Position)
    (c : Candle) : Option (ℚ × Trigger) :=
  match dp_exit_check p.entry_price p.stop_loss p.target c with
  | some x => some x
  | none =>
    if (max_trade_duration_minutes : ℚ) ≤ ((c.time : ℚ) - (p.entry_time : ℚ)) / 60 then
      some (c.close, Trigger.TIME_EXIT)
    else none

/-- Exit phase of the daily-picks per-bar loop
(`daily_picks_backtest.py` lines 85-141): close the position on a
trigger and record the trade with the symbol and date. -/
def dp_sim_exit_phase (max_trade_duration_minutes date : ℕ) (symbol : String)
    (c : Candle) (s : SimState) : SimState :=
  match s.pos with
  | none => s
  | some p =>
    match dp_check_with_time max_trade_duration_minutes p c with
    | none => s
    | some xp =>
      { s with
          pos := none
          trades := s.trades ++
            [⟨some symbol, p.entry_price, xp.1, p.quantity, p.entry_time, c.time,
              round2 (compute_exit_pnl p.entry_price xp.1 p.quantity p.trade_type).1,
              round2 (compute_exit_pnl p.entry_price xp.1 p.quantity p.trade_type).2,
              xp.2, p.reason, some date⟩] }

/-- Entry phase of the daily-picks per-bar loop
(`daily_picks_backtest.py` lines 143-169): past the 30-bar warm-up and
flat, evaluate on history `candles[:i+1]` with the candidate metadata
merged into the info dict, and open a position on BUY.  The ghost
`calls` log records the invocation. -/
def dp_sim_entry_phase (algo : AlgoEval) (capital risk_percent : ℚ)
    (symbol : String) (cand : Candidate) (candles : List Candle) (i : ℕ)
    (c : Candle) (s : SimState) : SimState :=
  if s.pos = none ∧ 30 ≤ i then
    match algo capital risk_percent symbol (candles.take (i + 1)) c.close
        ⟨symbol, c.open_p, c.high, c.low, c.close, c.volume, c.open_interest, some cand⟩ with
    | none => { s with calls := s.calls ++ [⟨i, candles.take (i + 1), c.close⟩] }
    | some sig =>
      if sig.action = SignalAction.BUY then
        { s with
            pos := some ⟨sig.entry_price, sig.stop_loss, sig.target,
              sig.quantity, c.time, TradeType.INTRADAY, sig.reason⟩
            calls := s.calls ++ [⟨i, candles.take (i + 1), c.close⟩] }
      else { s with calls := s.calls ++ [⟨i, candles.take (i + 1), c.close⟩] }
  else s

/-- One bar of `_simulate_symbol_intraday`. -/
def dp_sim_step (algo : AlgoEval) (capital risk_percent : ℚ) (symbol : String)
    (cand : Candidate) (date max_trade_duration_minutes : ℕ)
    (candles : List Candle) (i : ℕ) (c : Candle) (s : SimState) : SimState :=
  dp_sim_entry_phase algo capital risk_percent symbol cand candles i c
    (dp_sim_exit_phase max_trade_duration_minutes date symbol c s)

/-- The bar loop of `_simulate_symbol_intraday`. -/
def dp_sim_loop (algo : AlgoEval) (capital risk_percent : ℚ) (symbol : String)
    (cand : Candidate) (date max_trade_duration_minutes : ℕ)
    (candles : List Candle) : ℕ → List Candle → SimState → SimState
  | _, [], s => s
  | i, c :: cs, s =>
    dp_sim_loop algo capital risk_percent symbol cand date max_trade_duration_minutes
      candles (i + 1) cs
      (dp_sim_step algo capital risk_percent symbol cand date max_trade_duration_minutes
        candles i c s)

/-- The loop state after all bars of `_simulate_symbol_intraday`
(`daily_picks_backtest.py` lines 75-169); fewer than 30 candles means
the early `return trades` with nothing simulated. -/
def simulate_symbol_state (algo : AlgoEval) (cand : Candidate)
    (date max_trade_duration_minutes : ℕ) (candles : List Candle)
    (capital risk_percent : ℚ) : SimState :=
  if candles.length < 30 then ⟨none, [], []⟩
  else dp_sim_loop algo capital risk_percent cand.symbol cand date
    max_trade_duration_minutes candles 0 candles ⟨none, [], []⟩

/-- Port of `_simulate_symbol_intraday` (`daily_picks_backtest.py` lines
51-197): the list of trades of one symbol's session, with any position
still open after the last bar force-closed at that bar's close with
trigger `EOD`. -/
def simulate_symbol_intraday (algo : AlgoEval) (cand : Candidate)
    (date max_trade_duration_minutes : ℕ) (candles : List Candle)
    (capital risk_percent : ℚ) : List ClosedTrade :=
  let s := simulate_symbol_state algo cand date max_trade_duration_minutes candles
    capital risk_percent
  match s.pos, candles.getLast? with
  | some p, some last =>
    s.trades ++
      [⟨some cand.symbol, p.entry_price, last.close, p.quantity, p.entry_time, last.time,
        round2 (compute_exit_pnl p.entry_price last.close p.quantity TradeType.INTRADAY).1,
        round2 (compute_exit_pnl p.entry_price last.close p.quantity TradeType.INTRADAY).2,
        Trigger.EOD, p.reason, some date⟩]
  | _, _ => s.trades

/-- One `Snapshot` of the historical screener
(`run_daily_picks_historical`): the candidate list and the
high-conviction count from its `meta`. -/
structure Snapshot where
  candidates : List Candidate
  high_conviction_count : ℕ
deriving DecidableEq

/-- Ghost record of one `_simulate_symbol_intraday` invocation by the
day loop: the day, the symbol, and the capital basis
(`current_equity`) the simulation was parameterized with. -/
structure SimCall where
  date : ℕ
  symbol : String
  capital : ℚ
deriving DecidableEq

/-- The multi-day portfolio state of `run_daily_picks_backtest`
(`daily_picks_backtest.py` lines 249-252): running equity, aggregated
trades, day-level equity curve, yielded events, and the ghost log of
per-symbol simulation calls. -/
structure DPState where
  equity : ℚ
  all_trades : List ClosedTrade
  equity_curve : List EquityPoint
  events : List BTEvent
  sim_log : List SimCall
deriving DecidableEq

/-- Stable insertion for a descending sort by `day_change_pct`
(Python's stable `sort(key=..., reverse=True)`). -/
def insert_cand_desc (cand : Candidate) : List Candidate → List Candidate
  | [] => [cand]
  | x :: xs =>
    if cand.day_change_pct ≤ x.day_change_pct then x :: insert_cand_desc cand xs
    else cand :: x :: xs

/-- Stable descending sort by `day_change_pct`. -/
def sort_cand_desc (l : List Candidate) : List Candidate :=
  l.foldl (fun acc c => insert_cand_desc c acc) []

/-- Candidate selection for one day (`daily_picks_backtest.py` lines
280-291): high-conviction candidates first, each group sorted descending
by day-change percentage, truncated to `max_positions_per_day * 3`. -/
def select_candidates (candidates : List Candidate) (max_positions_per_day : ℕ) :
    List Candidate :=
  (sort_cand_desc (candidates.filter fun c => c.high_conviction)
    ++ sort_cand_desc (candidates.filter fun c => !c.high_conviction)).take
    (max_positions_per_day * 3)

/-- One trading day of `run_daily_picks_backtest`
(`daily_picks_backtest.py` lines 254-336).  The bounded worker pool is
modelled sequentially: each selected candidate's session is simulated
with the same day-start `current_equity` snapshot (the source's workers
all read `current_equity` before it is compounded at line 323), and the
day's trades are merged afterwards. -/
def dp_day (algo : AlgoEval) (snapshots : ℕ → Option Snapshot)
    (candle_source : String → ℕ → List Candle)
    (max_positions_per_day : ℕ) (risk_percent : ℚ)
    (max_trade_duration_minutes : ℕ) (d : ℕ) (s : DPState) : DPState :=
  match snapshots d with
  | none => { s with events := s.events ++ [BTEvent.day_start d 0] }
  | some snap =>
    if snap.candidates = [] then
      { s with events := s.events ++ [BTEvent.day_start d 0] }
    else
      let selected := select_candidates snap.candidates max_positions_per_day
      let daily_trades := (selected.map fun cand =>
        simulate_symbol_intraday algo cand d max_trade_duration_minutes
          (candle_source cand.symbol d) s.equity risk_percent).join
      let daily_pnl := sum_pnl daily_trades
      let daily_fees := (daily_trades.map ClosedTrade.fees).sum
      { equity := s.equity + daily_pnl
        all_trades := s.all_trades ++ daily_trades
        equity_curve := s.equity_curve ++
          [⟨none, some d, round2 (s.equity + daily_pnl), some (round2 daily_pnl),
            some (round2 daily_fees)⟩]
        events := s.events ++ [BTEvent.day_start d snap.candidates.length]
          ++ daily_trades.map BTEvent.trade
          ++ [BTEvent.day_complete d (round2 daily_pnl) (round2 daily_fees)
                daily_trades.length]
        sim_log := s.sim_log ++ selected.map fun cand => ⟨d, cand.symbol, s.equity⟩ }

/-- The sequential day loop (day N+1 starts only after day N's equity is
compounded). -/
def dp_day_loop (algo : AlgoEval) (snapshots : ℕ → Option Snapshot)
    (candle_source : String → ℕ → List Candle)
    (max_positions_per_day : ℕ) (risk_percent : ℚ)
    (max_trade_duration_minutes : ℕ) : List ℕ → DPState → DPState
  | [], s => s
  | d :: ds, s =>
    dp_day_loop algo snapshots candle_source max_positions_per_day risk_percent
      max_trade_duration_minutes ds
      (dp_day algo snapshots candle_source max_positions_per_day risk_percent
        max_trade_duration_minutes d s)

/-- Outcome of `run_daily_picks_backtest`: the yielded events, whether
the generator returned or raised, and the aggregates (plus the ghost
sim-call log). -/
structure DPRun where
  events : List BTEvent
  outcome : Except PyErr Unit
  all_trades : List ClosedTrade
  equity_curve : List EquityPoint
  sim_log : List SimCall

/-- Port of `run_daily_picks_backtest` (`daily_picks_backtest.py` lines
200-352).  `registry` models `StrategyRegistry.get`, `snapshots` models
`run_daily_picks_historical`, and `candle_source` models the per-symbol
`get_candles` result.  The equity curve starts with an initial point
keyed by the first trading day, and after the day loop the source calls
`_compute_metrics` on the day-keyed curve: every point lacks a `time`
key, so that call raises `KeyError` before the final `complete` event
can be yielded. -/
def run_daily_picks_backtest (registry : String → Option AlgoEval)
    (snapshots : ℕ → Option Snapshot)
    (candle_source : String → ℕ → List Candle)
    (start_date end_date : ℕ) (algo_id : String) (initial_capital : ℚ)
    (max_positions_per_day : ℕ) (risk_percent : ℚ)
    (max_trade_duration_minutes : ℕ) : DPRun :=
  match registry algo_id with
  | none => ⟨[BTEvent.error_event "Strategy not found"], Except.ok (), [], [], []⟩
  | some algo =>
    match get_trading_days start_date end_date with
    | [] => ⟨[BTEvent.error_event "No trading days in range"], Except.ok (), [], [], []⟩
    | d0 :: rest =>
      let st := dp_day_loop algo snapshots candle_source max_positions_per_day
        risk_percent max_trade_duration_minutes (d0 :: rest)
        ⟨initial_capital, [], [⟨none, some d0, initial_capital, none, none⟩], [], []⟩
      match compute_metrics initial_capital st.all_trades st.equity_curve with
      | Except.error e =>
        ⟨st.events, Except.error e, st.all_trades, st.equity_curve, st.sim_log⟩
      | Except.ok m =>
        ⟨st.events ++ [BTEvent.complete (some m) st.all_trades st.equity_curve none],
          Except.ok (), st.all_trades, st.equity_curve, st.sim_log⟩

/-- Constant bar used by the concrete witnesses. -/
def w_candle : Candle := ⟨0, 100, 100, 100, 100, 0, 0⟩

/-- A 31-bar session: long enough for the 30-bar warm-up. -/
def w_candles : List Candle := List.replicate 31 w_candle

/-- An evaluator that always answers BUY at 100 with stop 95 and target
105 for one share. -/
def w_algo_buy : AlgoEval := fun _ _ _ _ _ _ =>
  some ⟨SignalAction.BUY, 100, 95, 105, 1, "w"⟩

/-- A plain candidate row. -/
def w_cand : Candidate := ⟨"A", false, 0⟩

/-- The position the witness run opens at bar 30. -/
def w_pos : Position := ⟨100, 95, 105, 1, 0, TradeType.INTRADAY, "w"⟩

/-- Holds on trades dated strictly before day `dd` (a trade without a
date never qualifies). -/
def trade_before (dd : ℕ) (t : ClosedTrade) : Bool :=
  match t.date with
  | some d2 => decide (d2 < dd)
  | none => false

/-- Invariant of the daily-picks day loop, relative to the days still to
be processed: the running equity equals the initial capital plus the
booked PnL; every trade is dated before every future day; every logged
simulation call was parameterized with the initial capital plus the PnL
of the trades dated before its day; all curve points are day-keyed (no
`time`); no `complete` event has been yielded; and the curve is
non-empty. -/
def dp_inv (initial_capital : ℚ) (future : List ℕ) (s : DPState) : Prop :=
  s.equity = initial_capital + sum_pnl s.all_trades ∧
  (∀ t ∈ s.all_trades, ∃ dd, t.date = some dd ∧ ∀ f ∈ future, dd < f) ∧
  (∀ e ∈ s.sim_log,
      e.capital = initial_capital
        + sum_pnl (s.all_trades.filter (trade_before e.date)) ∧
      ∀ f ∈ future, e.date < f) ∧
  (∀ p ∈ s.equity_curve, p.time = none) ∧
  (∀ e ∈ s.events, is_complete_event e = false) ∧
  s.equity_curve ≠ []

/-- The trade the witness session closes at end of day. -/
def w_trade : ClosedTrade :=
  ⟨some "A", 100, 100, 1, 0, 0, -(1/10), 1/10, Trigger.EOD, "w", some 0⟩

/-- Registry, screener and candle source of the two-day compounding
witness: always the BUY evaluator, always the single candidate, a full
31-bar session on day 0 and no candles on day 1. -/
def w_registry : String → Option AlgoEval := fun _ => some w_algo_buy

/-- One-candidate snapshots for the witness. -/
def w_snapshots : ℕ → Option Snapshot := fun _ => some ⟨[w_cand], 0⟩

/-- Day 0 has the 31-bar session, later days have no candles. -/
def w_source : String → ℕ → List Candle := fun _ d => if d = 0 then w_candles else []

/-- Initial state of the witness run. -/
def w_s0 : DPState := ⟨100000, [], [⟨none, some 0, 100000, none, none⟩], [], []⟩

/-- A never-signalling evaluator for the no-look-ahead witness. -/
def w_algo_none : AlgoEval := fun _ _ _ _ _ _ => none

/-! Section: Evaluation lemmas for the rounding function -/

lemma roundHalfEven_lo (q : ℚ) (f : ℤ) (h1 : (f : ℚ) ≤ q) (h2 : q < (f : ℚ) + 1/2) :
    roundHalfEven q = f := by
  have hf : ⌊q⌋ = f := Int.floor_eq_iff.mpr ⟨h1, by linarith⟩
  unfold roundHalfEven
  rw [hf]
  simp only []
  rw [if_pos (by linarith)]

lemma roundHalfEven_hi (q : ℚ) (f : ℤ) (h1 : (f : ℚ) + 1/2 < q) (h2 : q < (f : ℚ) + 1) :
    roundHalfEven q = f + 1 := by
  have hf : ⌊q⌋ = f := Int.floor_eq_iff.mpr ⟨by linarith, by linarith⟩
  unfold roundHalfEven
  rw [hf]
  rw [if_neg (by intro h; linarith), if_pos (by linarith)]

lemma round2_lo (q : ℚ) (f : ℤ) (h1 : (f : ℚ) ≤ q * 100) (h2 : q * 100 < (f : ℚ) + 1/2) :
    round2 q = (f : ℚ) / 100 := by
  unfold round2 round_dp
  norm_num
  rw [roundHalfEven_lo (q * 100) f h1 h2]

lemma round2_hi (q : ℚ) (f : ℤ) (h1 : (f : ℚ) + 1/2 < q * 100) (h2 : q * 100 < (f : ℚ) + 1) :
    round2 q = ((f : ℚ) + 1) / 100 := by
  unfold round2 round_dp
  norm_num
  rw [roundHalfEven_hi (q * 100) f h1 h2]
  push_cast
  ring

/-! Section: Concrete fee computations used by the claims -/

lemma calculate_fees_buy_100_10_delivery :
    calculate_fees 100 10 Side.BUY TradeType.DELIVERY DEFAULT_FEE_CONFIG = 143/100 := by
  have h : calculate_fees 100 10 Side.BUY TradeType.DELIVERY DEFAULT_FEE_CONFIG
      = round2 (142589/100000) := by
    unfold calculate_fees DEFAULT_FEE_CONFIG
    norm_num [min_def]
  rw [h, round2_hi (142589/100000) 142 (by norm_num) (by norm_num)]
  norm_num

lemma calculate_fees_sell_110_10_delivery :
    calculate_fees 110 10 Side.SELL TradeType.DELIVERY DEFAULT_FEE_CONFIG = 154/100 := by
  have hne : (Side.SELL = Side.BUY) = False := eq_false (by decide)
  have h : calculate_fees 110 10 Side.SELL TradeType.DELIVERY DEFAULT_FEE_CONFIG
      = round2 (1535479/1000000) := by
    unfold calculate_fees DEFAULT_FEE_CONFIG
    norm_num [min_def, hne]
  rw [h, round2_hi (1535479/1000000) 153 (by norm_num) (by norm_num)]
  norm_num

/-- Claim C9: under the default fee schedule,
`compute_exit_pnl(100, 110, 10, "DELIVERY")` equals the gross profit `100`
minus the sum of the BUY-side fee on `(100, 10)` and the SELL-side fee on
`(110, 10)`, each side rounded to 2 decimals (`1.43` and `1.54`), giving
`net_pnl = 97.03` and `total_fees = 2.97`. -/
theorem compute_exit_pnl_delivery_example :
    calculate_fees 100 10 Side.BUY TradeType.DELIVERY DEFAULT_FEE_CONFIG = 143/100 ∧
    calculate_fees 110 10 Side.SELL TradeType.DELIVERY DEFAULT_FEE_CONFIG = 154/100 ∧
    compute_exit_pnl 100 110 10 TradeType.DELIVERY
      = (100 - (143/100 + 154/100), 297/100) ∧
    compute_exit_pnl 100 110 10 TradeType.DELIVERY = (9703/100, 297/100) := by
  have hb := calculate_fees_buy_100_10_delivery
  have hs := calculate_fees_sell_110_10_delivery
  have hmain : compute_exit_pnl 100 110 10 TradeType.DELIVERY = (9703/100, 297/100) := by
    simp only [compute_exit_pnl]
    rw [hb, hs]
    norm_num
    rw [round2_lo (9703/100) 9703 (by norm_num) (by norm_num),
        round2_lo (297/100) 297 (by norm_num) (by norm_num)]
    norm_num
  refine ⟨hb, hs, ?_, hmain⟩
  rw [hmain]
  norm_num

/-- Claim C4: in the single-symbol engine, a bar touching both levels is
resolved by proximity to the bar's open: TARGET when
`|target - open| ≤ |open - stop_loss|`, else SL, with the exit price at
the chosen level. -/
theorem engine_exit_check_both_touched (sl target : ℚ) (c : Candle)
    (hhi : target ≤ c.high) (hlo : c.low ≤ sl) :
    engine_exit_check sl target c
      = if |target - c.open_p| ≤ |c.open_p - sl| then some (target, Trigger.TARGET)
        else some (sl, Trigger.SL) := by
  unfold engine_exit_check
  rw [if_pos ⟨hhi, hlo⟩]

/-- Witness for C4: the spec's exact-tie example. For the bar
`open=100, high=106, low=94` and the position `stop_loss=95, target=105`,
both levels are touched, the distances from the open tie at 5, and the
`≤` tie rule picks TARGET with exit price 105. -/
theorem engine_exit_check_both_touched_witness :
    ((105 : ℚ) ≤ (106 : ℚ) ∧ (94 : ℚ) ≤ (95 : ℚ)) ∧
    engine_exit_check 95 105 ⟨0, 100, 106, 94, 100, 0, 0⟩
      = some (105, Trigger.TARGET) := by
  refine ⟨⟨by norm_num, by norm_num⟩, ?_⟩
  rw [engine_exit_check_both_touched 95 105 ⟨0, 100, 106, 94, 100, 0, 0⟩
        (by norm_num) (by norm_num)]
  rw [if_pos]
  show |(105 : ℚ) - 100| ≤ |(100 : ℚ) - 95|
  rw [show |(105 : ℚ) - 100| = 5 by rw [abs_of_nonneg] <;> norm_num,
      show |(100 : ℚ) - 95| = 5 by rw [abs_of_nonneg] <;> norm_num]

/-- Counterexample for C3: for a long position with `stop_loss=95`,
`target=105` and a bar `open=100, high=106, low=94` touching both levels,
the single-symbol engine's per-bar check exits at TARGET (tie-break by
proximity to open) while the daily-picks engine's per-bar check exits at
SL (it tests the stop first and has no tie-break), so the claimed
identity of the exit decision across the implementations is false. -/
theorem exit_checks_disagree_counterexample :
    engine_exit_check 95 105 ⟨0, 100, 106, 94, 100, 0, 0⟩
      = some (105, Trigger.TARGET) ∧
    dp_exit_check 100 95 105 ⟨0, 100, 106, 94, 100, 0, 0⟩
      = some (95, Trigger.SL) ∧
    engine_exit_check 95 105 ⟨0, 100, 106, 94, 100, 0, 0⟩
      ≠ dp_exit_check 100 95 105 ⟨0, 100, 106, 94, 100, 0, 0⟩ := by
  have h1 : engine_exit_check 95 105 ⟨0, 100, 106, 94, 100, 0, 0⟩
      = some (105, Trigger.TARGET) := by
    rw [engine_exit_check_both_touched 95 105 ⟨0, 100, 106, 94, 100, 0, 0⟩
          (by norm_num) (by norm_num)]
    rw [if_pos]
    show |(105 : ℚ) - 100| ≤ |(100 : ℚ) - 95|
    rw [show |(105 : ℚ) - 100| = 5 by rw [abs_of_nonneg] <;> norm_num,
        show |(100 : ℚ) - 95| = 5 by rw [abs_of_nonneg] <;> norm_num]
  have h2 : dp_exit_check 100 95 105 ⟨0, 100, 106, 94, 100, 0, 0⟩
      = some (95, Trigger.SL) := by
    unfold dp_exit_check
    norm_num
  refine ⟨h1, h2, ?_⟩
  rw [h1, h2]
  simp

/-- Claim C3, amended: (1) for long positions the two backtest per-bar
exit checks agree on every bar that does not touch both levels; (2) on a
both-touched bar the daily-picks check always exits at SL (no tie-break),
which is where the implementations diverge; (3) the live monitor's tick
check behaves as the claim states for long positions: SL when
`price ≤ stop_loss`, else TARGET when `price ≥ target`. -/
theorem exit_rule_parity_amended :
    (∀ (entry sl target : ℚ) (c : Candle), sl < entry →
        ¬(target ≤ c.high ∧ c.low ≤ sl) →
        engine_exit_check sl target c = dp_exit_check entry sl target c) ∧
    (∀ (entry sl target : ℚ) (c : Candle), sl < entry →
        target ≤ c.high → c.low ≤ sl →
        dp_exit_check entry sl target c = some (sl, Trigger.SL)) ∧
    (∀ entry sl target ltp : ℚ, sl < entry →
        monitor_check_exit entry sl target ltp
          = if ltp ≤ sl then some Trigger.SL
            else if target ≤ ltp then some Trigger.TARGET else none) := by
  refine ⟨?_, ?_, ?_⟩
  · intro entry sl target c hlong hboth
    by_cases h1 : target ≤ c.high <;> by_cases h2 : c.low ≤ sl <;>
      simp [engine_exit_check, dp_exit_check, h1, h2, hlong] <;>
      exact absurd ⟨h1, h2⟩ hboth
  · intro entry sl target c hlong h1 h2
    simp [dp_exit_check, hlong, h2]
  · intro entry sl target ltp hlong
    simp [monitor_check_exit, hlong]

/-- Witness for the amended C3: concrete instantiations of its three
parts — a long position on a bar touching only the target (both checks
agree on TARGET), the both-touched bar (daily-picks picks SL), and a live
tick at 94 below the stop. -/
theorem exit_rule_parity_amended_witness :
    ((95 : ℚ) < 100 ∧ ¬((105 : ℚ) ≤ (106 : ℚ) ∧ (99 : ℚ) ≤ (95 : ℚ))) ∧
    engine_exit_check 95 105 ⟨0, 100, 106, 99, 100, 0, 0⟩
      = dp_exit_check 100 95 105 ⟨0, 100, 106, 99, 100, 0, 0⟩ ∧
    dp_exit_check 100 95 105 ⟨0, 100, 106, 94, 100, 0, 0⟩
      = some (95, Trigger.SL) ∧
    monitor_check_exit 100 95 105 94
      = (if (94 : ℚ) ≤ 95 then some Trigger.SL
         else if (105 : ℚ) ≤ 94 then some Trigger.TARGET else none) := by
  refine ⟨⟨by norm_num, by norm_num⟩, ?_, ?_, ?_⟩
  · exact exit_rule_parity_amended.1 100 95 105 ⟨0, 100, 106, 99, 100, 0, 0⟩
      (by norm_num) (by norm_num)
  · exact exit_rule_parity_amended.2.1 100 95 105 ⟨0, 100, 106, 94, 100, 0, 0⟩
      (by norm_num) (by norm_num) (by norm_num)
  · exact exit_rule_parity_amended.2.2 100 95 105 94 (by norm_num)

/-! Section: Lemmas about the cache store -/

lemma store_lookup_insert (s : CacheStore) (k : ℕ) (v : List Candle) (d : ℕ) :
    store_lookup (store_insert s k v) d
      = if d = k then some v else store_lookup s d := by
  induction s with
  | nil =>
    by_cases h : d = k
    · simp only [store_insert, store_lookup]
      rw [if_pos (show k = d from h.symm), if_pos h]
    · simp only [store_insert, store_lookup]
      rw [if_neg (show ¬k = d from fun hh => h hh.symm), if_neg h]
  | cons e es ih =>
    by_cases he : e.1 = k
    · simp only [store_insert, if_pos he, store_lookup]
      by_cases h : d = k
      · rw [if_pos (show k = d from h.symm), if_pos h]
      · rw [if_neg (show ¬k = d from fun hh => h hh.symm), if_neg h,
            if_neg (show ¬e.1 = d from fun hed => h (he.symm.trans hed).symm)]
    · simp only [store_insert, if_neg he, store_lookup, ih]
      by_cases hed : e.1 = d
      · rw [if_pos hed, if_neg (fun hdk => he (hed.trans hdk)), if_pos hed]
      · by_cases h : d = k
        · rw [if_neg hed, if_pos h, if_pos h]
        · rw [if_neg hed, if_neg h, if_neg h, if_neg hed]

lemma load_cached_foldl_lookup (store : CacheStore) (dates : List ℕ) (d : ℕ) :
    ∀ m : CacheStore,
      store_lookup
          (dates.foldl
            (fun m d =>
              match store_lookup store d with
              | some v => store_insert m d v
              | none => m) m) d
        = if d ∈ dates ∧ (store_lookup store d).isSome then store_lookup store d
          else store_lookup m d := by
  induction dates with
  | nil => intro m; simp
  | cons d0 ds ih =>
    intro m
    rw [List.foldl_cons, ih]
    by_cases hmem : d ∈ ds ∧ (store_lookup store d).isSome
    · simp only [if_pos hmem]
      have : d ∈ d0 :: ds ∧ (store_lookup store d).isSome :=
        ⟨List.mem_cons_of_mem d0 hmem.1, hmem.2⟩
      rw [if_pos this]
    · rw [if_neg hmem]
      by_cases hd0 : d = d0
      · subst hd0
        cases hs : store_lookup store d with
        | none => simp [hs]
        | some v =>
          simp only [hs]
          rw [store_lookup_insert]
          simp [hs]
      · cases hs : store_lookup store d0 with
        | none =>
          simp only [hs]
          have : ¬(d ∈ d0 :: ds ∧ (store_lookup store d).isSome) := by
            intro ⟨h1, h2⟩
            rcases List.mem_cons.mp h1 with h | h
            · exact hd0 h
            · exact hmem ⟨h, h2⟩
          rw [if_neg this]
        | some v =>
          simp only [hs]
          rw [store_lookup_insert]
          have : ¬(d ∈ d0 :: ds ∧ (store_lookup store d).isSome) := by
            intro ⟨h1, h2⟩
            rcases List.mem_cons.mp h1 with h | h
            · exact hd0 h
            · exact hmem ⟨h, h2⟩
          rw [if_neg (by exact hd0), if_neg this]

lemma load_cached_lookup (store : CacheStore) (dates : List ℕ) (d : ℕ) :
    store_lookup (load_cached store dates) d
      = if d ∈ dates ∧ (store_lookup store d).isSome then store_lookup store d
        else none := by
  unfold load_cached
  rw [load_cached_foldl_lookup]
  rfl

lemma foldl_insert_parallel (groups : List (ℕ × List Candle)) (d : ℕ) :
    ∀ m s : CacheStore, store_lookup m d = store_lookup s d →
      store_lookup (groups.foldl (fun acc g => store_insert acc g.1 g.2) m) d
        = store_lookup (groups.foldl (fun acc g => store_insert acc g.1 g.2) s) d := by
  induction groups with
  | nil => intro m s h; exact h
  | cons g gs ih =>
    intro m s h
    rw [List.foldl_cons, List.foldl_cons]
    apply ih
    rw [store_lookup_insert, store_lookup_insert, h]

lemma fetch_missing_map_store (fetch : ℕ → ℕ → List Candle) (max_days missing_last : ℕ)
    (d : ℕ) :
    ∀ (fuel : ℕ) (missing : List ℕ) (st : FetchState),
      store_lookup st.map d = store_lookup st.store d →
      store_lookup (fetch_missing fetch max_days missing_last fuel missing st).map d
        = store_lookup (fetch_missing fetch max_days missing_last fuel missing st).store d := by
  intro fuel
  induction fuel with
  | zero => intro missing st h; simpa [fetch_missing] using h
  | succ n ih =>
    intro missing st h
    cases missing with
    | nil => simpa [fetch_missing] using h
    | cons d0 ds =>
      rw [fetch_missing]
      apply ih
      exact foldl_insert_parallel _ d _ _ h

lemma merged_congr (dates : List ℕ) (m1 m2 : CacheStore)
    (h : ∀ d ∈ dates, store_lookup m1 d = store_lookup m2 d) :
    ∀ acc : List Candle,
      dates.foldl (fun acc d => acc ++ ((store_lookup m1 d).getD [])) acc
        = dates.foldl (fun acc d => acc ++ ((store_lookup m2 d).getD [])) acc := by
  induction dates with
  | nil => intro acc; rfl
  | cons d0 ds ih =>
    intro acc
    rw [List.foldl_cons, List.foldl_cons, h d0 (List.mem_cons_self d0 ds)]
    exact ih (fun d hd => h d (List.mem_cons_of_mem d0 hd)) _

lemma gc_state_map_store (fetch : ℕ → ℕ → List Candle) (max_days : ℕ)
    (store : CacheStore) (start_date end_date : ℕ) :
    ∀ d ∈ all_dates start_date end_date,
      store_lookup (gc_state fetch max_days store start_date end_date).map d
        = store_lookup (gc_state fetch max_days store start_date end_date).store d := by
  intro d hd
  have hbase : store_lookup (load_cached store (all_dates start_date end_date)) d
      = store_lookup store d := by
    rw [load_cached_lookup]
    by_cases hs : (store_lookup store d).isSome
    · rw [if_pos ⟨hd, hs⟩]
    · rw [if_neg (fun hh => hs hh.2)]
      cases hlk : store_lookup store d with
      | none => rfl
      | some v => rw [hlk] at hs; simp at hs
  unfold gc_state
  by_cases hm : (all_dates start_date end_date).filter
      (fun d => (store_lookup store d).isNone) = []
  · rw [dif_pos hm]
    exact hbase
  · rw [dif_neg hm]
    exact fetch_missing_map_store fetch max_days _ d _ _ _ hbase

/-- Counterexample for C5: take a one-day range whose single day is a
non-trading day (the source returns zero valid candles for it).  The
first `get_candles` call fetches once and persists nothing for that day,
so a second call with the identical arguments and the store left by the
first call fetches again: it issues 1 fetch call, not 0. -/
theorem get_candles_refetches_empty_day_counterexample :
    (get_candles (fun _ _ => []) 30 [] 0 0).fetch_count = 1 ∧
    (get_candles (fun _ _ => []) 30 [] 0 0).store = [] ∧
    (get_candles (fun _ _ => []) 30
        (get_candles (fun _ _ => []) 30 [] 0 0).store 0 0).fetch_count = 1 ∧
    (get_candles (fun _ _ => []) 30
        (get_candles (fun _ _ => []) 30 [] 0 0).store 0 0).fetch_count ≠ 0 := by
  refine ⟨by decide, by decide, by decide, by decide⟩

/-- Claim C5, amended: if after the first `get_candles` call every
calendar day of the range has a persisted bucket (equivalently, the
source returned at least one valid candle for every day of the range),
then a second call with identical arguments and no intervening cache
mutation issues zero fetch calls, returns an identical candle list, and
leaves the store unchanged.  Days for which the source returned zero
valid candles are never persisted, so they are fetched again on every
call (see the counterexample). -/
theorem get_candles_idempotent_when_fully_cached
    (fetch : ℕ → ℕ → List Candle) (max_days : ℕ) (store : CacheStore)
    (start_date end_date : ℕ)
    (hcached : ∀ d ∈ all_dates start_date end_date,
        (store_lookup (get_candles fetch max_days store start_date end_date).store d).isSome) :
    (get_candles fetch max_days
        (get_candles fetch max_days store start_date end_date).store
        start_date end_date).fetch_count = 0 ∧
    (get_candles fetch max_days
        (get_candles fetch max_days store start_date end_date).store
        start_date end_date).result
      = (get_candles fetch max_days store start_date end_date).result ∧
    (get_candles fetch max_days
        (get_candles fetch max_days store start_date end_date).store
        start_date end_date).store
      = (get_candles fetch max_days store start_date end_date).store := by
  by_cases hlt : end_date < start_date
  · simp [get_candles, hlt]
  · -- first call
    have hc1 : get_candles fetch max_days store start_date end_date
        = ⟨dedupe_by_time (sort_by_time
            ((all_dates start_date end_date).foldl
              (fun acc d => acc ++
                ((store_lookup (gc_state fetch max_days store start_date end_date).map d).getD []))
              [])),
           (gc_state fetch max_days store start_date end_date).store,
           (gc_state fetch max_days store start_date end_date).count⟩ := by
      rw [get_candles, if_neg hlt]
    set st1 := gc_state fetch max_days store start_date end_date with hst1
    have hstore1 : (get_candles fetch max_days store start_date end_date).store = st1.store := by
      rw [hc1]
    -- the second call finds no missing day
    have hnomiss : (all_dates start_date end_date).filter
        (fun d => (store_lookup st1.store d).isNone) = [] := by
      rw [List.filter_eq_nil]
      intro d hd
      have := hcached d hd
      rw [hstore1] at this
      cases hlk : store_lookup st1.store d with
      | none => rw [hlk] at this; simp at this
      | some v => simp [hlk]
    have hst2 : gc_state fetch max_days st1.store start_date end_date
        = ⟨load_cached st1.store (all_dates start_date end_date), st1.store, 0⟩ := by
      simp only [gc_state]
      rw [dif_pos hnomiss]
    have hc2 : get_candles fetch max_days st1.store start_date end_date
        = ⟨dedupe_by_time (sort_by_time
            ((all_dates start_date end_date).foldl
              (fun acc d => acc ++
                ((store_lookup (load_cached st1.store (all_dates start_date end_date)) d).getD []))
              [])),
           st1.store, 0⟩ := by
      rw [get_candles, if_neg hlt, hst2]
    -- both merged lists read the same buckets
    have hmerge : ∀ d ∈ all_dates start_date end_date,
        store_lookup (load_cached st1.store (all_dates start_date end_date)) d
          = store_lookup st1.map d := by
      intro d hd
      rw [load_cached_lookup]
      have hsome : (store_lookup st1.store d).isSome := by
        have := hcached d hd
        rw [hstore1] at this
        exact this
      rw [if_pos ⟨hd, hsome⟩]
      exact (gc_state_map_store fetch max_days store start_date end_date d hd).symm
    rw [hstore1, hc2, hc1]
    refine ⟨rfl, ?_, rfl⟩
    simp only []
    rw [merged_congr (all_dates start_date end_date) _ _ hmerge]

/-- Witness for the amended C5: a source with one valid candle on the
single requested day.  The first call persists the day bucket, the
hypothesis of the amended theorem holds, and the theorem yields a
fetch-free identical second call. -/
theorem get_candles_idempotent_witness :
    (∀ d ∈ all_dates 0 0,
        (store_lookup (get_candles (fun _ _ => [⟨43200, 1, 1, 1, 1, 0, 0⟩]) 30 [] 0 0).store d).isSome) ∧
    ((get_candles (fun _ _ => [⟨43200, 1, 1, 1, 1, 0, 0⟩]) 30
        (get_candles (fun _ _ => [⟨43200, 1, 1, 1, 1, 0, 0⟩]) 30 [] 0 0).store 0 0).fetch_count = 0 ∧
     (get_candles (fun _ _ => [⟨43200, 1, 1, 1, 1, 0, 0⟩]) 30
        (get_candles (fun _ _ => [⟨43200, 1, 1, 1, 1, 0, 0⟩]) 30 [] 0 0).store 0 0).result
       = (get_candles (fun _ _ => [⟨43200, 1, 1, 1, 1, 0, 0⟩]) 30 [] 0 0).result ∧
     (get_candles (fun _ _ => [⟨43200, 1, 1, 1, 1, 0, 0⟩]) 30
        (get_candles (fun _ _ => [⟨43200, 1, 1, 1, 1, 0, 0⟩]) 30 [] 0 0).store 0 0).store
       = (get_candles (fun _ _ => [⟨43200, 1, 1, 1, 1, 0, 0⟩]) 30 [] 0 0).store) := by
  have h : ∀ d ∈ all_dates 0 0,
      (store_lookup (get_candles (fun _ _ => [⟨43200, 1, 1, 1, 1, 0, 0⟩]) 30 [] 0 0).store d).isSome := by
    decide
  exact ⟨h, get_candles_idempotent_when_fully_cached (fun _ _ => [⟨43200, 1, 1, 1, 1, 0, 0⟩]) 30 [] 0 0 h⟩

lemma sum_pnl_append (a b : List ClosedTrade) :
    sum_pnl (a ++ b) = sum_pnl a + sum_pnl b := by
  unfold sum_pnl
  rw [List.map_append, List.sum_append]

/-- Exit-phase characterization: zero or one trades appended, closed at
this bar's time, with pnl booked into `realized`; curve and calls
untouched; only `trade` events appended. -/
lemma bt_exit_phase_shape (c : Candle) (s : BTState) :
    ∃ tr : List ClosedTrade,
      (bt_exit_phase c s).trades = s.trades ++ tr ∧
      (bt_exit_phase c s).realized = s.realized + sum_pnl tr ∧
      (bt_exit_phase c s).curve = s.curve ∧
      (bt_exit_phase c s).calls = s.calls ∧
      (∀ t ∈ tr, t.exit_time = c.time) ∧
      (bt_exit_phase c s).events = s.events ++ tr.map BTEvent.trade := by
  unfold bt_exit_phase
  match hp : s.pos with
  | none => exact ⟨[], by simp [sum_pnl]⟩
  | some p =>
    match hc : engine_exit_check p.stop_loss p.target c with
    | none => exact ⟨[], by simp [hc, sum_pnl]⟩
    | some xp =>
      refine ⟨[⟨none, p.entry_price, xp.1, p.quantity, p.entry_time, c.time,
        (compute_exit_pnl p.entry_price xp.1 p.quantity p.trade_type).1,
        (compute_exit_pnl p.entry_price xp.1 p.quantity p.trade_type).2,
        xp.2, p.reason, none⟩], ?_⟩
      simp [hc, sum_pnl]

/-- Entry-phase characterization: trades, realized, curve and events are
untouched; at most one ghost call record is appended, always with the
history `candles[:i+1]`, the bar's close, and the warm-up bound on the
index. -/
lemma bt_entry_phase_shape (algo : AlgoEval) (groww_symbol : String)
    (initial_capital risk_percent : ℚ) (max_positions : ℕ)
    (candles : List Candle) (i : ℕ) (c : Candle) (s : BTState) :
    (bt_entry_phase algo groww_symbol initial_capital risk_percent max_positions
        candles i c s).trades = s.trades ∧
    (bt_entry_phase algo groww_symbol initial_capital risk_percent max_positions
        candles i c s).realized = s.realized ∧
    (bt_entry_phase algo groww_symbol initial_capital risk_percent max_positions
        candles i c s).curve = s.curve ∧
    (bt_entry_phase algo groww_symbol initial_capital risk_percent max_positions
        candles i c s).events = s.events ∧
    ∃ cl : List EvalCall,
      (bt_entry_phase algo groww_symbol initial_capital risk_percent max_positions
          candles i c s).calls = s.calls ++ cl ∧
      ∀ e ∈ cl, e.bar = i ∧ e.history = candles.take (i + 1) ∧ e.price = c.close := by
  unfold bt_entry_phase
  split
  case isTrue h =>
    split
    · exact ⟨rfl, rfl, rfl, rfl, [⟨i, candles.take (i + 1), c.close⟩], rfl, by simp⟩
    · split
      · exact ⟨rfl, rfl, rfl, rfl, [⟨i, candles.take (i + 1), c.close⟩], rfl, by simp⟩
      · exact ⟨rfl, rfl, rfl, rfl, [⟨i, candles.take (i + 1), c.close⟩], rfl, by simp⟩
  case isFalse h =>
    exact ⟨rfl, rfl, rfl, rfl, [], by simp, by simp⟩

/-- Progress-phase characterization: only `progress` events are
appended. -/
lemma bt_progress_phase_shape (total_bars i : ℕ) (s : BTState) :
    (bt_progress_phase total_bars i s).trades = s.trades ∧
    (bt_progress_phase total_bars i s).realized = s.realized ∧
    (bt_progress_phase total_bars i s).curve = s.curve ∧
    (bt_progress_phase total_bars i s).calls = s.calls ∧
    ∃ ev : List BTEvent,
      (bt_progress_phase total_bars i s).events = s.events ++ ev ∧
      ∀ e ∈ ev, is_complete_event e = false := by
  unfold bt_progress_phase
  split
  · exact ⟨rfl, rfl, rfl, rfl,
      [BTEvent.progress (round_dp 1 (((i : ℚ) + 1) / total_bars * 100)) (i + 1) total_bars],
      rfl, by simp [is_complete_event]⟩
  · exact ⟨rfl, rfl, rfl, rfl, [], by simp, by simp⟩

/-- What one loop iteration of `run_backtest` does to the observable
state: it appends zero or one closed trades (each closed at this bar's
time, with `pnl` accounted into `realized`), appends exactly one
equity-curve point carrying `initial_capital + realized` at this bar's
time, appends only non-`complete` events, and appends only ghost call
records for bar `i` with history `candles[:i+1]`. -/
lemma run_backtest_step_shape (algo : AlgoEval) (groww_symbol : String)
    (initial_capital risk_percent : ℚ) (max_positions : ℕ)
    (candles : List Candle) (total_bars i : ℕ) (c : Candle) (s : BTState) :
    ∃ tr : List ClosedTrade, ∃ ev : List BTEvent, ∃ cl : List EvalCall,
      (run_backtest_step algo groww_symbol initial_capital risk_percent max_positions
          candles total_bars i c s).trades = s.trades ++ tr ∧
      (run_backtest_step algo groww_symbol initial_capital risk_percent max_positions
          candles total_bars i c s).realized = s.realized + sum_pnl tr ∧
      (run_backtest_step algo groww_symbol initial_capital risk_percent max_positions
          candles total_bars i c s).curve = s.curve ++
        [⟨some c.time, none, initial_capital + s.realized + sum_pnl tr, none, none⟩] ∧
      (∀ t ∈ tr, t.exit_time = c.time) ∧
      (run_backtest_step algo groww_symbol initial_capital risk_percent max_positions
          candles total_bars i c s).events = s.events ++ ev ∧
      (∀ e ∈ ev, is_complete_event e = false) ∧
      (run_backtest_step algo groww_symbol initial_capital risk_percent max_positions
          candles total_bars i c s).calls = s.calls ++ cl ∧
      (∀ e ∈ cl, e.bar = i ∧ e.history = candles.take (i + 1) ∧ e.price = c.close) := by
  obtain ⟨tr, h1, h2, h3, h4, h5, h6⟩ := bt_exit_phase_shape c s
  set s1 := bt_exit_phase c s with hs1
  set s2 := bt_mark_phase initial_capital c s1 with hs2
  have m1 : s2.trades = s1.trades := rfl
  have m2 : s2.realized = s1.realized := rfl
  have m3 : s2.curve = s1.curve ++
      [⟨some c.time, none, initial_capital + s1.realized, none, none⟩] := rfl
  have m4 : s2.events = s1.events := rfl
  have m5 : s2.calls = s1.calls := rfl
  obtain ⟨e1, e2, e3, e4, cl, e5, e6⟩ := bt_entry_phase_shape algo groww_symbol
    initial_capital risk_percent max_positions candles i c s2
  set s3 := bt_entry_phase algo groww_symbol initial_capital risk_percent max_positions
    candles i c s2 with hs3
  obtain ⟨p1, p2, p3, p4, ev, p5, p6⟩ := bt_progress_phase_shape total_bars i s3
  refine ⟨tr, tr.map BTEvent.trade ++ ev, cl, ?_, ?_, ?_, h5, ?_, ?_, ?_, e6⟩
  · rw [run_backtest_step, p1, e1, m1, h1]
  · rw [run_backtest_step, p2, e2, m2, h2]
  · rw [run_backtest_step, p3, e3, m3, h3, h2, add_assoc]
  · rw [run_backtest_step, p5, e4, m4, h6, List.append_assoc]
  · intro e he
    rcases List.mem_append.mp he with h | h
    · rcases List.mem_map.mp h with ⟨t, _, rfl⟩
      rfl
    · exact p6 e h
  · rw [run_backtest_step, p4, e5, m5, h4]

lemma bt_inv_step (algo : AlgoEval) (groww_symbol : String)
    (initial_capital risk_percent : ℚ) (max_positions : ℕ)
    (candles : List Candle) (total_bars : ℕ)
    (P : List Candle) (c : Candle) (s : BTState)
    (hinv : bt_inv initial_capital P s)
    (hlt : ∀ cp ∈ P, cp.time < c.time) :
    bt_inv initial_capital (P ++ [c])
      (run_backtest_step algo groww_symbol initial_capital risk_percent max_positions
        candles total_bars P.length c s) := by
  obtain ⟨tr, ev, cl, htr, hre, hcu, hti, hev, hevc, hcl, hclp⟩ :=
    run_backtest_step_shape algo groww_symbol initial_capital risk_percent max_positions
      candles total_bars P.length c s
  obtain ⟨i1, i2, i3, i4⟩ := hinv
  refine ⟨?_, ?_, ?_, ?_⟩
  · rw [hcu]
    simp [i1]
  · rw [hre, htr, sum_pnl_append, i2]
  · intro t ht
    rw [htr] at ht
    rcases List.mem_append.mp ht with h | h
    · obtain ⟨cp, hcp, he⟩ := i3 t h
      exact ⟨cp, List.mem_append_left _ hcp, he⟩
    · exact ⟨c, List.mem_append_right _ (List.mem_singleton_self c), hti t h⟩
  · intro j p c' hj hc'
    rw [hcu] at hj
    by_cases hlen : j < s.curve.length
    · rw [List.get?_append hlen] at hj
      have hjP : j < P.length := by rw [← i1]; exact hlen
      rw [List.get?_append hjP] at hc'
      have hmem : c' ∈ P := List.get?_mem hc'
      have hlt' : c'.time < c.time := hlt c' hmem
      have hfil : tr.filter (fun t => decide (t.exit_time ≤ c'.time)) = [] := by
        rw [List.filter_eq_nil]
        intro t ht
        have := hti t ht
        simp [this]
        omega
      rw [htr, List.filter_append, hfil, List.append_nil]
      exact i4 j p c' hj hc'
    · have hje : j = s.curve.length := by
        by_contra hne
        have : s.curve.length + 1 ≤ j := by omega
        rw [List.get?_eq_none.mpr (by simp; omega)] at hj
        exact Option.noConfusion hj
      subst hje
      rw [List.get?_concat_length] at hj
      have hcP : P.get? s.curve.length = none := List.get?_eq_none.mpr (by omega)
      have hcl' : (P ++ [c]).get? s.curve.length = some c := by
        rw [i1]
        exact List.get?_concat_length P c
      rw [hcl'] at hc'
      cases hj
      cases hc'
      have hall : (s.trades ++ tr).filter (fun t => decide (t.exit_time ≤ c.time))
          = s.trades ++ tr := by
        rw [List.filter_eq_self]
        intro t ht
        rcases List.mem_append.mp ht with h | h
        · obtain ⟨cp, hcp, he⟩ := i3 t h
          have := hlt cp hcp
          simp [he]
          omega
        · simp [hti t h]
      rw [htr]
      show initial_capital + s.realized + sum_pnl tr
          = initial_capital + sum_pnl ((s.trades ++ tr).filter fun t => decide (t.exit_time ≤ c.time))
      rw [hall, sum_pnl_append, i2, add_assoc]

lemma run_backtest_loop_inv (algo : AlgoEval) (groww_symbol : String)
    (initial_capital risk_percent : ℚ) (max_positions : ℕ)
    (candles : List Candle) (total_bars : ℕ) :
    ∀ (rest P : List Candle) (s : BTState),
      (∀ a ∈ P, ∀ b ∈ rest, a.time < b.time) →
      rest.Pairwise (fun a b => a.time < b.time) →
      bt_inv initial_capital P s →
      bt_inv initial_capital (P ++ rest)
        (run_backtest_loop algo groww_symbol initial_capital risk_percent max_positions
          candles total_bars P.length rest s) := by
  intro rest
  induction rest with
  | nil =>
    intro P s _ _ hinv
    simpa [run_backtest_loop] using hinv
  | cons c cs ih =>
    intro P s hcross hpw hinv
    rw [run_backtest_loop]
    have hstep := bt_inv_step algo groww_symbol initial_capital risk_percent max_positions
      candles total_bars P c s hinv
      (fun cp hcp => hcross cp hcp c (List.mem_cons_self c cs))
    have hcross' : ∀ a ∈ P ++ [c], ∀ b ∈ cs, a.time < b.time := by
      intro a ha b hb
      rcases List.mem_append.mp ha with h | h
      · exact hcross a h b (List.mem_cons_of_mem c hb)
      · rw [List.mem_singleton.mp h]
        exact (List.pairwise_cons.mp hpw).1 b hb
    have hpw' : cs.Pairwise (fun a b => a.time < b.time) := (List.pairwise_cons.mp hpw).2
    have := ih (P ++ [c]) _ hcross' hpw' hstep
    rw [List.length_append, List.length_singleton] at this
    rw [List.append_cons]
    exact this

lemma time_le_last (l : List Candle)
    (hmono : l.Pairwise fun a b => a.time < b.time)
    (a : Candle) (ha : a ∈ l) (p : Candle)
    (hp : l.get? (l.length - 1) = some p) : a.time ≤ p.time := by
  obtain ⟨⟨k, hk⟩, rfl⟩ := List.mem_iff_get.mp ha
  have hlen : 0 < l.length := by omega
  have hlast : l.length - 1 < l.length := by omega
  have hpe : p = l.get ⟨l.length - 1, hlast⟩ := by
    rw [List.get?_eq_get hlast] at hp
    exact (Option.some_injective _ hp).symm
  by_cases hkl : k = l.length - 1
  · subst hkl
    rw [hpe]
  · have hklt : k < l.length - 1 := by omega
    have := List.pairwise_iff_get.mp hmono ⟨k, hk⟩ ⟨l.length - 1, hlast⟩ (by simpa using hklt)
    rw [hpe]
    exact le_of_lt this

/-- Claim C7: in the single-symbol engine, on a strictly time-sorted
candle series (what the cache returns), the equity curve has one point
per bar; the point at index `i` carries `initial_capital` plus the net
PnL of exactly the trades closed at or before bar `i`; and the last
point's equity is `initial_capital` plus the net PnL of all trades. -/
theorem run_backtest_equity_invariant (algo : AlgoEval) (groww_symbol : String)
    (initial_capital risk_percent : ℚ) (max_positions : ℕ) (candles : List Candle)
    (hmono : candles.Pairwise fun a b => a.time < b.time) :
    (bt_sim algo groww_symbol initial_capital risk_percent max_positions candles).curve.length
      = candles.length ∧
    (∀ i p c,
      (bt_sim algo groww_symbol initial_capital risk_percent max_positions candles).curve.get? i
          = some p →
      candles.get? i = some c →
      p.equity = initial_capital + sum_pnl
        ((bt_sim algo groww_symbol initial_capital risk_percent max_positions candles).trades.filter
          fun t => decide (t.exit_time ≤ c.time))) ∧
    (∀ p,
      (bt_sim algo groww_symbol initial_capital risk_percent max_positions candles).curve.getLast?
          = some p →
      p.equity = initial_capital + sum_pnl
        (bt_sim algo groww_symbol initial_capital risk_percent max_positions candles).trades) := by
  have hinit : bt_inv initial_capital [] init_bt_state := by
    refine ⟨rfl, by simp [init_bt_state, sum_pnl], ?_, ?_⟩
    · intro t ht
      simp [init_bt_state] at ht
    · intro i p c hp hc
      simp [init_bt_state] at hp
  have hinv := run_backtest_loop_inv algo groww_symbol initial_capital risk_percent
    max_positions candles candles.length candles [] init_bt_state
    (by intro a ha; simp at ha) hmono hinit
  rw [List.nil_append] at hinv
  have hsim : bt_sim algo groww_symbol initial_capital risk_percent max_positions candles
      = run_backtest_loop algo groww_symbol initial_capital risk_percent max_positions
          candles candles.length ([] : List Candle).length candles init_bt_state := rfl
  rw [← hsim] at hinv
  obtain ⟨i1, i2, i3, i4⟩ := hinv
  refine ⟨i1, i4, ?_⟩
  intro p hp
  have hne : (bt_sim algo groww_symbol initial_capital risk_percent max_positions candles).curve ≠ [] := by
    intro h
    rw [h] at hp
    exact Option.noConfusion hp
  have hpos : 0 < candles.length := by
    rw [← i1]
    exact List.length_pos.mpr hne
  rw [List.getLast?_eq_get?, i1] at hp
  have hlast : candles.length - 1 < candles.length := by omega
  have hc : candles.get? (candles.length - 1)
      = some (candles.get ⟨candles.length - 1, hlast⟩) := List.get?_eq_get hlast
  have := i4 (candles.length - 1) p (candles.get ⟨candles.length - 1, hlast⟩) hp hc
  rw [this]
  have hall : ((bt_sim algo groww_symbol initial_capital risk_percent max_positions candles).trades.filter
      fun t => decide (t.exit_time ≤ (candles.get ⟨candles.length - 1, hlast⟩).time))
      = (bt_sim algo groww_symbol initial_capital risk_percent max_positions candles).trades := by
    rw [List.filter_eq_self]
    intro t ht
    obtain ⟨cp, hcp, he⟩ := i3 t ht
    have hle := time_le_last candles hmono cp hcp (candles.get ⟨candles.length - 1, hlast⟩) hc
    rw [he]
    simpa using hle
  rw [hall]

/-- Witness for C7: a concrete strictly time-sorted two-bar series
satisfies the hypothesis, and the theorem applies. -/
theorem run_backtest_equity_invariant_witness :
    ([⟨0, 100, 100, 100, 100, 0, 0⟩, ⟨60, 100, 100, 100, 100, 0, 0⟩] :
        List Candle).Pairwise (fun a b => a.time < b.time) ∧
    ((bt_sim (fun _ _ _ _ _ _ => none) "X" 100000 1 1
        [⟨0, 100, 100, 100, 100, 0, 0⟩, ⟨60, 100, 100, 100, 100, 0, 0⟩]).curve.length = 2 ∧
     (∀ p, (bt_sim (fun _ _ _ _ _ _ => none) "X" 100000 1 1
        [⟨0, 100, 100, 100, 100, 0, 0⟩, ⟨60, 100, 100, 100, 100, 0, 0⟩]).curve.getLast? = some p →
        p.equity = 100000 + sum_pnl (bt_sim (fun _ _ _ _ _ _ => none) "X" 100000 1 1
          [⟨0, 100, 100, 100, 100, 0, 0⟩, ⟨60, 100, 100, 100, 100, 0, 0⟩]).trades)) := by
  have hmono : ([⟨0, 100, 100, 100, 100, 0, 0⟩, ⟨60, 100, 100, 100, 100, 0, 0⟩] :
      List Candle).Pairwise (fun a b => a.time < b.time) := by
    refine List.Pairwise.cons ?_ (List.pairwise_singleton _ _)
    intro b hb
    rw [List.mem_singleton.mp hb]
    show (0 : ℕ) < 60
    omega
  have h := run_backtest_equity_invariant (fun _ _ _ _ _ _ => none) "X" 100000 1 1
    [⟨0, 100, 100, 100, 100, 0, 0⟩, ⟨60, 100, 100, 100, 100, 0, 0⟩] hmono
  exact ⟨hmono, h.1, h.2.2⟩

lemma run_backtest_loop_no_complete (algo : AlgoEval) (groww_symbol : String)
    (initial_capital risk_percent : ℚ) (max_positions : ℕ)
    (candles : List Candle) (total_bars : ℕ) :
    ∀ (rest : List Candle) (i : ℕ) (s : BTState),
      (∀ e ∈ s.events, is_complete_event e = false) →
      ∀ e ∈ (run_backtest_loop algo groww_symbol initial_capital risk_percent max_positions
          candles total_bars i rest s).events, is_complete_event e = false := by
  intro rest
  induction rest with
  | nil => intro i s h; simpa [run_backtest_loop] using h
  | cons c cs ih =>
    intro i s h
    rw [run_backtest_loop]
    apply ih
    obtain ⟨tr, ev, cl, _, _, _, _, hev, hevc, _, _⟩ :=
      run_backtest_step_shape algo groww_symbol initial_capital risk_percent max_positions
        candles total_bars i c s
    rw [hev]
    intro e he
    rcases List.mem_append.mp he with hh | hh
    · exact h e hh
    · exact hevc e hh

/-- Claim C1 (code bug): for every single-symbol run that passes date
validation and has a non-empty candle series, the `run_backtest`
generator never yields a `complete` event: after the last bar it raises
`UnboundLocalError` at `backtest_engine.py` line 311, where the debug
call reads `signal_analysis.keys()` before `signal_analysis` is assigned
(line 323). -/
theorem run_backtest_raises_instead_of_complete (algo : AlgoEval)
    (groww_symbol : String) (start_date end_date today : ℕ)
    (candles : List Candle) (initial_capital risk_percent : ℚ) (max_positions : ℕ)
    (h1 : start_date ≤ end_date) (h2 : end_date ≤ today) (h3 : candles ≠ []) :
    (run_backtest algo groww_symbol start_date end_date today candles
        initial_capital risk_percent max_positions).outcome
      = Except.error (PyErr.unboundLocalError "signal_analysis") ∧
    ∀ e ∈ (run_backtest algo groww_symbol start_date end_date today candles
        initial_capital risk_percent max_positions).events,
      is_complete_event e = false := by
  unfold run_backtest
  rw [if_neg (not_lt.mpr h1), if_neg (not_lt.mpr h2), if_neg h3]
  refine ⟨rfl, ?_⟩
  exact run_backtest_loop_no_complete algo groww_symbol initial_capital risk_percent
    max_positions candles candles.length candles 0 init_bt_state
    (by intro e he; simp [init_bt_state] at he)

/-- Witness for C1: a valid one-bar run with a never-signalling
evaluator; the generator's outcome is the `UnboundLocalError` and no
yielded event is a `complete` event. -/
theorem run_backtest_raises_witness :
    ((0 : ℕ) ≤ 0 ∧ (0 : ℕ) ≤ 0 ∧ ([⟨0, 1, 1, 1, 1, 0, 0⟩] : List Candle) ≠ []) ∧
    (run_backtest (fun _ _ _ _ _ _ => none) "X" 0 0 0 [⟨0, 1, 1, 1, 1, 0, 0⟩]
        100000 1 1).outcome
      = Except.error (PyErr.unboundLocalError "signal_analysis") ∧
    ∀ e ∈ (run_backtest (fun _ _ _ _ _ _ => none) "X" 0 0 0 [⟨0, 1, 1, 1, 1, 0, 0⟩]
        100000 1 1).events, is_complete_event e = false := by
  have h := run_backtest_raises_instead_of_complete (fun _ _ _ _ _ _ => none) "X" 0 0 0
    [⟨0, 1, 1, 1, 1, 0, 0⟩] 100000 1 1 (le_refl 0) (le_refl 0) (by simp)
  exact ⟨⟨le_refl 0, le_refl 0, by simp⟩, h.1, h.2⟩

/-! Section: Lemmas about the daily-picks simulation -/

lemma dp_sim_exit_phase_shape (max_trade_duration_minutes date : ℕ)
    (symbol : String) (c : Candle) (s : SimState) :
    ∃ tr : List ClosedTrade,
      (dp_sim_exit_phase max_trade_duration_minutes date symbol c s).trades
        = s.trades ++ tr ∧
      (∀ t ∈ tr, t.date = some date) ∧
      (dp_sim_exit_phase max_trade_duration_minutes date symbol c s).calls = s.calls := by
  unfold dp_sim_exit_phase
  match hp : s.pos with
  | none => exact ⟨[], by simp⟩
  | some p =>
    match hc : dp_check_with_time max_trade_duration_minutes p c with
    | none => exact ⟨[], by simp [hc]⟩
    | some xp =>
      refine ⟨[⟨some symbol, p.entry_price, xp.1, p.quantity, p.entry_time, c.time,
        round2 (compute_exit_pnl p.entry_price xp.1 p.quantity p.trade_type).1,
        round2 (compute_exit_pnl p.entry_price xp.1 p.quantity p.trade_type).2,
        xp.2, p.reason, some date⟩], ?_⟩
      simp [hc]

lemma dp_sim_entry_phase_shape (algo : AlgoEval) (capital risk_percent : ℚ)
    (symbol : String) (cand : Candidate) (candles : List Candle) (i : ℕ)
    (c : Candle) (s : SimState) :
    (dp_sim_entry_phase algo capital risk_percent symbol cand candles i c s).trades
      = s.trades ∧
    ∃ cl : List EvalCall,
      (dp_sim_entry_phase algo capital risk_percent symbol cand candles i c s).calls
        = s.calls ++ cl ∧
      ∀ e ∈ cl, e.bar = i ∧ e.history = candles.take (i + 1) := by
  unfold dp_sim_entry_phase
  split
  case isTrue h =>
    split
    · exact ⟨rfl, [⟨i, candles.take (i + 1), c.close⟩], rfl, by simp⟩
    · split
      · exact ⟨rfl, [⟨i, candles.take (i + 1), c.close⟩], rfl, by simp⟩
      · exact ⟨rfl, [⟨i, candles.take (i + 1), c.close⟩], rfl, by simp⟩
  case isFalse h =>
    exact ⟨rfl, [], by simp, by simp⟩

lemma dp_sim_loop_trades_date (algo : AlgoEval) (capital risk_percent : ℚ)
    (symbol : String) (cand : Candidate) (date max_trade_duration_minutes : ℕ)
    (candles : List Candle) :
    ∀ (rest : List Candle) (i : ℕ) (s : SimState),
      (∀ t ∈ s.trades, t.date = some date) →
      ∀ t ∈ (dp_sim_loop algo capital risk_percent symbol cand date
          max_trade_duration_minutes candles i rest s).trades, t.date = some date := by
  intro rest
  induction rest with
  | nil => intro i s h; simpa [dp_sim_loop] using h
  | cons c cs ih =>
    intro i s h
    rw [dp_sim_loop]
    apply ih
    unfold dp_sim_step
    obtain ⟨tr, htr, htrd, _⟩ :=
      dp_sim_exit_phase_shape max_trade_duration_minutes date symbol c s
    obtain ⟨het, _⟩ := dp_sim_entry_phase_shape algo capital risk_percent symbol cand
      candles i c (dp_sim_exit_phase max_trade_duration_minutes date symbol c s)
    rw [het, htr]
    intro t ht
    rcases List.mem_append.mp ht with hh | hh
    · exact h t hh
    · exact htrd t hh

lemma simulate_symbol_trades_date (algo : AlgoEval) (cand : Candidate)
    (date max_trade_duration_minutes : ℕ) (candles : List Candle)
    (capital risk_percent : ℚ) :
    ∀ t ∈ simulate_symbol_intraday algo cand date max_trade_duration_minutes candles
        capital risk_percent, t.date = some date := by
  have hstate : ∀ t ∈ (simulate_symbol_state algo cand date max_trade_duration_minutes
      candles capital risk_percent).trades, t.date = some date := by
    unfold simulate_symbol_state
    split
    · intro t ht
      simp at ht
    · exact dp_sim_loop_trades_date algo capital risk_percent cand.symbol cand date
        max_trade_duration_minutes candles candles 0 ⟨none, [], []⟩ (by intro t ht; simp at ht)
  simp only [simulate_symbol_intraday]
  split
  · intro t ht
    rcases List.mem_append.mp ht with hh | hh
    · exact hstate t hh
    · rw [List.mem_singleton.mp hh]
  · exact hstate

/-- Claim C10: in the daily-picks engine, a position still open after
the last bar of a symbol's session is force-closed at that bar's close:
the appended trade carries `exit_trigger = EOD`, `exit_price` equal to
the last bar's close, and `exit_time` equal to the last bar's time. -/
theorem dp_eod_forced_closure (algo : AlgoEval) (cand : Candidate)
    (date max_trade_duration_minutes : ℕ) (candles : List Candle)
    (capital risk_percent : ℚ) (p : Position) (last : Candle)
    (hp : (simulate_symbol_state algo cand date max_trade_duration_minutes candles
        capital risk_percent).pos = some p)
    (hlast : candles.getLast? = some last) :
    ∃ t : ClosedTrade,
      simulate_symbol_intraday algo cand date max_trade_duration_minutes candles
          capital risk_percent
        = (simulate_symbol_state algo cand date max_trade_duration_minutes candles
            capital risk_percent).trades ++ [t] ∧
      t.exit_trigger = Trigger.EOD ∧
      t.exit_price = last.close ∧
      t.exit_time = last.time ∧
      t.pnl = round2 (compute_exit_pnl p.entry_price last.close p.quantity
        TradeType.INTRADAY).1 := by
  refine ⟨⟨some cand.symbol, p.entry_price, last.close, p.quantity, p.entry_time, last.time,
    round2 (compute_exit_pnl p.entry_price last.close p.quantity TradeType.INTRADAY).1,
    round2 (compute_exit_pnl p.entry_price last.close p.quantity TradeType.INTRADAY).2,
    Trigger.EOD, p.reason, some date⟩, ?_, rfl, rfl, rfl, rfl⟩
  simp only [simulate_symbol_intraday, hp, hlast]

set_option maxRecDepth 10000 in
/-- Witness for C10: on the 31-bar witness session the always-BUY
evaluator opens a position at bar 30 (the last bar), no exit triggers,
and the theorem yields the EOD closure at the last bar's close. -/
theorem dp_eod_forced_closure_witness :
    ((simulate_symbol_state w_algo_buy w_cand 0 15 w_candles 100000 1).pos = some w_pos ∧
      w_candles.getLast? = some w_candle) ∧
    ∃ t : ClosedTrade,
      simulate_symbol_intraday w_algo_buy w_cand 0 15 w_candles 100000 1
        = (simulate_symbol_state w_algo_buy w_cand 0 15 w_candles 100000 1).trades ++ [t] ∧
      t.exit_trigger = Trigger.EOD ∧
      t.exit_price = w_candle.close ∧
      t.exit_time = w_candle.time ∧
      t.pnl = round2 (compute_exit_pnl w_pos.entry_price w_candle.close w_pos.quantity
        TradeType.INTRADAY).1 := by
  have h1 : (simulate_symbol_state w_algo_buy w_cand 0 15 w_candles 100000 1).pos
      = some w_pos := by decide
  have h2 : w_candles.getLast? = some w_candle := by decide
  exact ⟨⟨h1, h2⟩, dp_eod_forced_closure w_algo_buy w_cand 0 15 w_candles 100000 1
    w_pos w_candle h1 h2⟩

/-- What one day of the daily-picks loop does: it appends the day's
trades (all dated that day, with their PnL compounded into the running
equity), appends day-keyed curve points (no `time` key), appends only
non-`complete` events, and logs one simulation call per selected
candidate, each parameterized with the day-start equity snapshot. -/
lemma dp_day_shape (algo : AlgoEval) (snapshots : ℕ → Option Snapshot)
    (candle_source : String → ℕ → List Candle)
    (max_positions_per_day : ℕ) (risk_percent : ℚ)
    (max_trade_duration_minutes : ℕ) (d : ℕ) (s : DPState) :
    ∃ tr : List ClosedTrade, ∃ sc : List SimCall, ∃ ev : List BTEvent,
      ∃ pts : List EquityPoint,
      (dp_day algo snapshots candle_source max_positions_per_day risk_percent
          max_trade_duration_minutes d s).all_trades = s.all_trades ++ tr ∧
      (∀ t ∈ tr, t.date = some d) ∧
      (dp_day algo snapshots candle_source max_positions_per_day risk_percent
          max_trade_duration_minutes d s).equity = s.equity + sum_pnl tr ∧
      (dp_day algo snapshots candle_source max_positions_per_day risk_percent
          max_trade_duration_minutes d s).sim_log = s.sim_log ++ sc ∧
      (∀ e ∈ sc, e.date = d ∧ e.capital = s.equity) ∧
      (dp_day algo snapshots candle_source max_positions_per_day risk_percent
          max_trade_duration_minutes d s).events = s.events ++ ev ∧
      (∀ e ∈ ev, is_complete_event e = false) ∧
      (dp_day algo snapshots candle_source max_positions_per_day risk_percent
          max_trade_duration_minutes d s).equity_curve = s.equity_curve ++ pts ∧
      (∀ p ∈ pts, p.time = none) := by
  unfold dp_day
  cases hs : snapshots d with
  | none =>
    refine ⟨[], [], [BTEvent.day_start d 0], [], ?_⟩
    simp [sum_pnl, is_complete_event]
  | some snap =>
    by_cases hc : snap.candidates = []
    · refine ⟨[], [], [BTEvent.day_start d 0], [], ?_⟩
      simp [hc, sum_pnl, is_complete_event]
    · simp only [if_neg hc]
      refine ⟨((select_candidates snap.candidates max_positions_per_day).map fun cand =>
          simulate_symbol_intraday algo cand d max_trade_duration_minutes
            (candle_source cand.symbol d) s.equity risk_percent).join,
        (select_candidates snap.candidates max_positions_per_day).map
          (fun cand => ⟨d, cand.symbol, s.equity⟩),
        [BTEvent.day_start d snap.candidates.length]
          ++ (((select_candidates snap.candidates max_positions_per_day).map fun cand =>
              simulate_symbol_intraday algo cand d max_trade_duration_minutes
                (candle_source cand.symbol d) s.equity risk_percent).join).map BTEvent.trade
          ++ [BTEvent.day_complete d
                (round2 (sum_pnl (((select_candidates snap.candidates max_positions_per_day).map
                  fun cand => simulate_symbol_intraday algo cand d max_trade_duration_minutes
                    (candle_source cand.symbol d) s.equity risk_percent).join)))
                (round2 (((((select_candidates snap.candidates max_positions_per_day).map
                  fun cand => simulate_symbol_intraday algo cand d max_trade_duration_minutes
                    (candle_source cand.symbol d) s.equity risk_percent).join).map
                      ClosedTrade.fees).sum))
                (((select_candidates snap.candidates max_positions_per_day).map fun cand =>
                  simulate_symbol_intraday algo cand d max_trade_duration_minutes
                    (candle_source cand.symbol d) s.equity risk_percent).join).length],
        [⟨none, some d,
          round2 (s.equity + sum_pnl (((select_candidates snap.candidates max_positions_per_day).map
            fun cand => simulate_symbol_intraday algo cand d max_trade_duration_minutes
              (candle_source cand.symbol d) s.equity risk_percent).join)),
          some (round2 (sum_pnl (((select_candidates snap.candidates max_positions_per_day).map
            fun cand => simulate_symbol_intraday algo cand d max_trade_duration_minutes
              (candle_source cand.symbol d) s.equity risk_percent).join))),
          some (round2 (((((select_candidates snap.candidates max_positions_per_day).map
            fun cand => simulate_symbol_intraday algo cand d max_trade_duration_minutes
              (candle_source cand.symbol d) s.equity risk_percent).join).map
                ClosedTrade.fees).sum))⟩],
        rfl, ?_, rfl, rfl, ?_, ?_, ?_, rfl, ?_⟩
      · intro t ht
        rcases List.mem_join.mp ht with ⟨l, hl, htl⟩
        rcases List.mem_map.mp hl with ⟨cand, _, rfl⟩
        exact simulate_symbol_trades_date algo cand d max_trade_duration_minutes
          (candle_source cand.symbol d) s.equity risk_percent t htl
      · intro e he
        rcases List.mem_map.mp he with ⟨cand, _, rfl⟩
        exact ⟨rfl, rfl⟩
      · simp
      · intro e he
        rcases List.mem_append.mp he with he | he
        · rcases List.mem_append.mp he with he | he
          · rw [List.mem_singleton.mp he]
            rfl
          · rcases List.mem_map.mp he with ⟨t, _, rfl⟩
            rfl
        · rw [List.mem_singleton.mp he]
          rfl
      · intro p hp
        rw [List.mem_singleton.mp hp]

lemma compute_metrics_keyerror (initial_capital : ℚ) (trades : List ClosedTrade)
    (equity_curve : List EquityPoint) (hne : equity_curve ≠ [])
    (hall : ∀ p ∈ equity_curve, p.time = none) :
    compute_metrics initial_capital trades equity_curve
      = Except.error (PyErr.keyError "time") := by
  match equity_curve, hne with
  | p :: rest, _ =>
    have hp : p.time = none := hall p (List.mem_cons_self p rest)
    simp only [compute_metrics, List.foldlM_cons, hp]
    rfl

lemma dp_day_inv_step (algo : AlgoEval) (snapshots : ℕ → Option Snapshot)
    (candle_source : String → ℕ → List Candle)
    (max_positions_per_day : ℕ) (risk_percent : ℚ)
    (max_trade_duration_minutes : ℕ) (initial_capital : ℚ)
    (d : ℕ) (ds : List ℕ) (s : DPState)
    (hinv : dp_inv initial_capital (d :: ds) s)
    (hd : ∀ f ∈ ds, d < f) :
    dp_inv initial_capital ds
      (dp_day algo snapshots candle_source max_positions_per_day risk_percent
        max_trade_duration_minutes d s) := by
  obtain ⟨i1, i2, i3, i4, i5, i6⟩ := hinv
  obtain ⟨tr, sc, ev, pts, htr, htrd, heq, hsl, hscp, hev, hevc, hcu, hcup⟩ :=
    dp_day_shape algo snapshots candle_source max_positions_per_day risk_percent
      max_trade_duration_minutes d s
  have hold_lt_d : ∀ t ∈ s.all_trades, trade_before d t = true := by
    intro t ht
    obtain ⟨dd, hdd, hfut⟩ := i2 t ht
    unfold trade_before
    rw [hdd]
    simp [hfut d (List.mem_cons_self d ds)]
  refine ⟨?_, ?_, ?_, ?_, ?_, ?_⟩
  · rw [heq, htr, sum_pnl_append, i1, add_assoc]
  · intro t ht
    rw [htr] at ht
    rcases List.mem_append.mp ht with h | h
    · obtain ⟨dd, hdd, hfut⟩ := i2 t h
      exact ⟨dd, hdd, fun f hf => hfut f (List.mem_cons_of_mem d hf)⟩
    · exact ⟨d, htrd t h, hd⟩
  · intro e he
    rw [hsl] at he
    rcases List.mem_append.mp he with h | h
    · obtain ⟨hcap, hfut⟩ := i3 e h
      have hedlt : e.date < d := hfut d (List.mem_cons_self d ds)
      have hfil : tr.filter (trade_before e.date) = [] := by
        rw [List.filter_eq_nil]
        intro t ht
        unfold trade_before
        rw [htrd t ht]
        simp
        omega
      rw [htr, List.filter_append, hfil, List.append_nil]
      exact ⟨hcap, fun f hf => hfut f (List.mem_cons_of_mem d hf)⟩
    · obtain ⟨hed, hecap⟩ := hscp e h
      have hfil2 : tr.filter (trade_before e.date) = [] := by
        rw [List.filter_eq_nil]
        intro t ht
        unfold trade_before
        rw [htrd t ht, hed]
        simp
      have hfil1 : s.all_trades.filter (trade_before e.date) = s.all_trades := by
        rw [List.filter_eq_self]
        intro t ht
        rw [hed]
        exact hold_lt_d t ht
      rw [htr, List.filter_append, hfil1, hfil2, List.append_nil]
      refine ⟨by rw [hecap, i1], ?_⟩
      intro f hf
      rw [hed]
      exact hd f hf
  · intro p hp
    rw [hcu] at hp
    rcases List.mem_append.mp hp with h | h
    · exact i4 p h
    · exact hcup p h
  · intro e he
    rw [hev] at he
    rcases List.mem_append.mp he with h | h
    · exact i5 e h
    · exact hevc e h
  · rw [hcu]
    intro h
    exact i6 (List.append_eq_nil.mp h).1

lemma dp_day_loop_inv (algo : AlgoEval) (snapshots : ℕ → Option Snapshot)
    (candle_source : String → ℕ → List Candle)
    (max_positions_per_day : ℕ) (risk_percent : ℚ)
    (max_trade_duration_minutes : ℕ) (initial_capital : ℚ) :
    ∀ (days : List ℕ) (s : DPState),
      days.Pairwise (· < ·) →
      dp_inv initial_capital days s →
      dp_inv initial_capital []
        (dp_day_loop algo snapshots candle_source max_positions_per_day risk_percent
          max_trade_duration_minutes days s) := by
  intro days
  induction days with
  | nil => intro s _ hinv; simpa [dp_day_loop] using hinv
  | cons d ds ih =>
    intro s hpw hinv
    rw [dp_day_loop]
    exact ih _ (List.pairwise_cons.mp hpw).2
      (dp_day_inv_step algo snapshots candle_source max_positions_per_day risk_percent
        max_trade_duration_minutes initial_capital d ds s hinv
        (List.pairwise_cons.mp hpw).1)

lemma get_trading_days_pairwise (start_date end_date : ℕ) :
    (get_trading_days start_date end_date).Pairwise (· < ·) :=
  (List.pairwise_lt_range' start_date (end_date + 1 - start_date)).sublist
    (List.filter_sublist _)

/-- Claim C2 (code bug): every daily-picks run with a known strategy and
at least one trading day raises instead of yielding its final `complete`
event: after the day loop, `_compute_metrics` reads `point["time"]`
(`backtest_engine.py` line 104) on the day-keyed equity-curve points the
engine builds (`daily_picks_backtest.py` lines 252 and 325, which only
have a `date` key), so the generator raises `KeyError` and no
`complete` event is ever yielded. -/
theorem run_daily_picks_raises_keyerror (registry : String → Option AlgoEval)
    (snapshots : ℕ → Option Snapshot) (candle_source : String → ℕ → List Candle)
    (start_date end_date : ℕ) (algo_id : String) (initial_capital : ℚ)
    (max_positions_per_day : ℕ) (risk_percent : ℚ)
    (max_trade_duration_minutes : ℕ) (algo : AlgoEval)
    (halgo : registry algo_id = some algo)
    (hdays : get_trading_days start_date end_date ≠ []) :
    (run_daily_picks_backtest registry snapshots candle_source start_date end_date
        algo_id initial_capital max_positions_per_day risk_percent
        max_trade_duration_minutes).outcome = Except.error (PyErr.keyError "time") ∧
    ∀ e ∈ (run_daily_picks_backtest registry snapshots candle_source start_date end_date
        algo_id initial_capital max_positions_per_day risk_percent
        max_trade_duration_minutes).events, is_complete_event e = false := by
  obtain ⟨d0, rest, hd⟩ := List.exists_cons_of_ne_nil hdays
  have hinv0 : dp_inv initial_capital (d0 :: rest)
      ⟨initial_capital, [], [⟨none, some d0, initial_capital, none, none⟩], [], []⟩ := by
    refine ⟨by simp [sum_pnl], ?_, ?_, ?_, ?_, by simp⟩
    · intro t ht; simp at ht
    · intro e he; simp at he
    · intro p hp
      rw [List.mem_singleton.mp hp]
    · intro e he; simp at he
  have hpw : (d0 :: rest).Pairwise (· < ·) := by
    rw [← hd]
    exact get_trading_days_pairwise start_date end_date
  have hinv := dp_day_loop_inv algo snapshots candle_source max_positions_per_day
    risk_percent max_trade_duration_minutes initial_capital (d0 :: rest)
    ⟨initial_capital, [], [⟨none, some d0, initial_capital, none, none⟩], [], []⟩
    hpw hinv0
  obtain ⟨_, _, _, j4, j5, j6⟩ := hinv
  have hmet := compute_metrics_keyerror initial_capital
    (dp_day_loop algo snapshots candle_source max_positions_per_day risk_percent
      max_trade_duration_minutes (d0 :: rest)
      ⟨initial_capital, [], [⟨none, some d0, initial_capital, none, none⟩], [], []⟩).all_trades
    (dp_day_loop algo snapshots candle_source max_positions_per_day risk_percent
      max_trade_duration_minutes (d0 :: rest)
      ⟨initial_capital, [], [⟨none, some d0, initial_capital, none, none⟩], [], []⟩).equity_curve
    j6 j4
  unfold run_daily_picks_backtest
  rw [halgo, hd]
  simp only [hmet]
  exact ⟨trivial, j5⟩

/-- Witness for C2: a one-day run (1970-01-01, a Thursday) with a known
strategy and no candidates; the generator's outcome is the `KeyError`
and no yielded event is a `complete` event. -/
theorem run_daily_picks_raises_witness :
    ((fun _ : String => some (fun _ _ _ _ _ _ => none : AlgoEval)) "momentum_scalp"
        = some (fun _ _ _ _ _ _ => none : AlgoEval) ∧
      get_trading_days 0 0 ≠ []) ∧
    (run_daily_picks_backtest (fun _ => some (fun _ _ _ _ _ _ => none))
        (fun _ => none) (fun _ _ => []) 0 0 "momentum_scalp" 100000 3 1 15).outcome
      = Except.error (PyErr.keyError "time") ∧
    ∀ e ∈ (run_daily_picks_backtest (fun _ => some (fun _ _ _ _ _ _ => none))
        (fun _ => none) (fun _ _ => []) 0 0 "momentum_scalp" 100000 3 1 15).events,
      is_complete_event e = false := by
  have h := run_daily_picks_raises_keyerror (fun _ => some (fun _ _ _ _ _ _ => none))
    (fun _ => none) (fun _ _ => []) 0 0 "momentum_scalp" 100000 3 1 15
    (fun _ _ _ _ _ _ => none) rfl (by decide)
  exact ⟨⟨rfl, by decide⟩, h.1, h.2⟩

/-- Claim C6: in a daily-picks run, every per-symbol simulation is
parameterized with the running equity compounded from all prior days:
its capital equals `initial_capital` plus the net PnL of exactly the
trades dated before its day; consequently all simulations of one day
share the same day-start capital snapshot. -/
theorem dp_capital_compounding (registry : String → Option AlgoEval)
    (snapshots : ℕ → Option Snapshot) (candle_source : String → ℕ → List Candle)
    (start_date end_date : ℕ) (algo_id : String) (initial_capital : ℚ)
    (max_positions_per_day : ℕ) (risk_percent : ℚ)
    (max_trade_duration_minutes : ℕ) :
    (∀ e ∈ (run_daily_picks_backtest registry snapshots candle_source start_date
        end_date algo_id initial_capital max_positions_per_day risk_percent
        max_trade_duration_minutes).sim_log,
      e.capital = initial_capital
        + sum_pnl ((run_daily_picks_backtest registry snapshots candle_source start_date
            end_date algo_id initial_capital max_positions_per_day risk_percent
            max_trade_duration_minutes).all_trades.filter (trade_before e.date))) ∧
    (∀ e1 ∈ (run_daily_picks_backtest registry snapshots candle_source start_date
        end_date algo_id initial_capital max_positions_per_day risk_percent
        max_trade_duration_minutes).sim_log,
     ∀ e2 ∈ (run_daily_picks_backtest registry snapshots candle_source start_date
        end_date algo_id initial_capital max_positions_per_day risk_percent
        max_trade_duration_minutes).sim_log,
      e1.date = e2.date → e1.capital = e2.capital) := by
  unfold run_daily_picks_backtest
  cases halgo : registry algo_id with
  | none =>
    constructor
    · intro e he
      simp at he
    · intro e1 he1
      simp at he1
  | some algo =>
    cases hd : get_trading_days start_date end_date with
    | nil =>
      constructor
      · intro e he
        simp at he
      · intro e1 he1
        simp at he1
    | cons d0 rest =>
      have hinv0 : dp_inv initial_capital (d0 :: rest)
          ⟨initial_capital, [], [⟨none, some d0, initial_capital, none, none⟩], [], []⟩ := by
        refine ⟨by simp [sum_pnl], ?_, ?_, ?_, ?_, by simp⟩
        · intro t ht; simp at ht
        · intro e he; simp at he
        · intro p hp
          rw [List.mem_singleton.mp hp]
        · intro e he; simp at he
      have hpw : (d0 :: rest).Pairwise (· < ·) := by
        rw [← hd]
        exact get_trading_days_pairwise start_date end_date
      obtain ⟨_, _, j3, _, _, _⟩ := dp_day_loop_inv algo snapshots candle_source
        max_positions_per_day risk_percent max_trade_duration_minutes initial_capital
        (d0 :: rest)
        ⟨initial_capital, [], [⟨none, some d0, initial_capital, none, none⟩], [], []⟩
        hpw hinv0
      cases hmet : compute_metrics initial_capital
          (dp_day_loop algo snapshots candle_source max_positions_per_day risk_percent
            max_trade_duration_minutes (d0 :: rest)
            ⟨initial_capital, [], [⟨none, some d0, initial_capital, none, none⟩], [], []⟩).all_trades
          (dp_day_loop algo snapshots candle_source max_positions_per_day risk_percent
            max_trade_duration_minutes (d0 :: rest)
            ⟨initial_capital, [], [⟨none, some d0, initial_capital, none, none⟩], [], []⟩).equity_curve with
    | error err =>
      simp only [hmet]
      constructor
      · intro e he
        exact (j3 e he).1
      · intro e1 he1 e2 he2 hdate
        rw [(j3 e1 he1).1, (j3 e2 he2).1, hdate]
    | ok m =>
      simp only [hmet]
      constructor
      · intro e he
        exact (j3 e he).1
      · intro e1 he1 e2 he2 hdate
        rw [(j3 e1 he1).1, (j3 e2 he2).1, hdate]

lemma calculate_fees_buy_100_1_intraday :
    calculate_fees 100 1 Side.BUY TradeType.INTRADAY DEFAULT_FEE_CONFIG = 4/100 := by
  have hne : (Side.BUY = Side.SELL) = False := eq_false (by decide)
  have h : calculate_fees 100 1 Side.BUY TradeType.INTRADAY DEFAULT_FEE_CONFIG
      = round2 (42589/1000000) := by
    unfold calculate_fees DEFAULT_FEE_CONFIG
    norm_num [min_def, hne]
  rw [h, round2_lo (42589/1000000) 4 (by norm_num) (by norm_num)]
  norm_num

lemma calculate_fees_sell_100_1_intraday :
    calculate_fees 100 1 Side.SELL TradeType.INTRADAY DEFAULT_FEE_CONFIG = 6/100 := by
  have hne : (Side.SELL = Side.BUY) = False := eq_false (by decide)
  have h : calculate_fees 100 1 Side.SELL TradeType.INTRADAY DEFAULT_FEE_CONFIG
      = round2 (64589/1000000) := by
    unfold calculate_fees DEFAULT_FEE_CONFIG
    norm_num [min_def, hne]
  rw [h, round2_lo (64589/1000000) 6 (by norm_num) (by norm_num)]
  norm_num

lemma compute_exit_pnl_flat_100_1_intraday :
    compute_exit_pnl 100 100 1 TradeType.INTRADAY = (-(1/10), 1/10) := by
  simp only [compute_exit_pnl]
  rw [calculate_fees_buy_100_1_intraday, calculate_fees_sell_100_1_intraday]
  norm_num
  constructor
  · rw [round2_lo (-(1/10)) (-10) (by norm_num) (by norm_num)]
    norm_num
  · rw [round2_lo (1/10) 10 (by norm_num) (by norm_num)]
    norm_num

lemma round2_neg_tenth : round2 (-(1/10)) = -(1/10) := by
  rw [round2_lo (-(1/10)) (-10) (by norm_num) (by norm_num)]
  norm_num

lemma round2_tenth : round2 (1/10) = 1/10 := by
  rw [round2_lo (1/10) 10 (by norm_num) (by norm_num)]
  norm_num

set_option maxRecDepth 10000 in
lemma w_sim_eval :
    simulate_symbol_intraday w_algo_buy w_cand 0 15 w_candles 100000 1 = [w_trade] := by
  have h1 : (simulate_symbol_state w_algo_buy w_cand 0 15 w_candles 100000 1).pos
      = some w_pos := by decide
  have h2 : (simulate_symbol_state w_algo_buy w_cand 0 15 w_candles 100000 1).trades
      = [] := by decide
  have h3 : w_candles.getLast? = some w_candle := by decide
  simp only [simulate_symbol_intraday, h1, h2, h3]
  show [(⟨some w_cand.symbol, w_pos.entry_price, w_candle.close, w_pos.quantity,
      w_pos.entry_time, w_candle.time,
      round2 (compute_exit_pnl w_pos.entry_price w_candle.close w_pos.quantity
        TradeType.INTRADAY).1,
      round2 (compute_exit_pnl w_pos.entry_price w_candle.close w_pos.quantity
        TradeType.INTRADAY).2,
      Trigger.EOD, w_pos.reason, some 0⟩ : ClosedTrade)] = [w_trade]
  show [(⟨some "A", 100, w_candle.close, 1, 0, w_candle.time,
      round2 (compute_exit_pnl 100 w_candle.close 1 TradeType.INTRADAY).1,
      round2 (compute_exit_pnl 100 w_candle.close 1 TradeType.INTRADAY).2,
      Trigger.EOD, "w", some 0⟩ : ClosedTrade)] = [w_trade]
  show [(⟨some "A", 100, 100, 1, 0, 0,
      round2 (compute_exit_pnl 100 100 1 TradeType.INTRADAY).1,
      round2 (compute_exit_pnl 100 100 1 TradeType.INTRADAY).2,
      Trigger.EOD, "w", some 0⟩ : ClosedTrade)] = [w_trade]
  rw [compute_exit_pnl_flat_100_1_intraday]
  show [(⟨some "A", 100, 100, 1, 0, 0, round2 (-(1/10)), round2 (1/10),
      Trigger.EOD, "w", some 0⟩ : ClosedTrade)] = [w_trade]
  rw [round2_neg_tenth, round2_tenth]
  rfl

/-- The final `complete`/`error` handling does not change the aggregates:
the run's sim-call log is the day loop's log. -/
lemma run_daily_picks_sim_log (registry : String → Option AlgoEval)
    (snapshots : ℕ → Option Snapshot) (candle_source : String → ℕ → List Candle)
    (start_date end_date : ℕ) (algo_id : String) (initial_capital : ℚ)
    (max_positions_per_day : ℕ) (risk_percent : ℚ)
    (max_trade_duration_minutes : ℕ) (algo : AlgoEval) (d0 : ℕ) (rest : List ℕ)
    (halgo : registry algo_id = some algo)
    (hd : get_trading_days start_date end_date = d0 :: rest) :
    (run_daily_picks_backtest registry snapshots candle_source start_date end_date
        algo_id initial_capital max_positions_per_day risk_percent
        max_trade_duration_minutes).sim_log
      = (dp_day_loop algo snapshots candle_source max_positions_per_day risk_percent
          max_trade_duration_minutes (d0 :: rest)
          ⟨initial_capital, [], [⟨none, some d0, initial_capital, none, none⟩], [], []⟩).sim_log := by
  unfold run_daily_picks_backtest
  rw [halgo, hd]
  cases hmet : compute_metrics initial_capital
      (dp_day_loop algo snapshots candle_source max_positions_per_day risk_percent
        max_trade_duration_minutes (d0 :: rest)
        ⟨initial_capital, [], [⟨none, some d0, initial_capital, none, none⟩], [], []⟩).all_trades
      (dp_day_loop algo snapshots candle_source max_positions_per_day risk_percent
        max_trade_duration_minutes (d0 :: rest)
        ⟨initial_capital, [], [⟨none, some d0, initial_capital, none, none⟩], [], []⟩).equity_curve with
  | error e => simp [hmet]
  | ok m => simp [hmet]

lemma w_sim_nil : ∀ cap risk : ℚ,
    simulate_symbol_intraday w_algo_buy w_cand 1 15 [] cap risk = [] := fun _ _ => rfl

set_option maxRecDepth 10000 in
lemma w_log_eval :
    (dp_day_loop w_algo_buy w_snapshots w_source 3 1 15 [0, 1] w_s0).sim_log
      = [⟨0, "A", 100000⟩, ⟨1, "A", 100000 + -(1/10)⟩] := by
  have hsel : select_candidates [w_cand] 3 = [w_cand] := by decide
  rw [dp_day_loop, dp_day_loop, dp_day_loop]
  simp only [dp_day, w_snapshots, w_source, w_s0, hsel, w_sim_eval, w_sim_nil,
    List.map_cons, List.map_nil, List.join,
    List.sum_cons, List.sum_nil, List.append_nil, List.nil_append,
    List.cons_append, add_zero, List.singleton_append]
  have hsim2 : simulate_symbol_intraday w_algo_buy ⟨"A", false, 0⟩ 0 15 w_candles
      100000 1 = [w_trade] := w_sim_eval
  norm_num [w_cand, w_trade, sum_pnl, hsim2]

/-- Witness for C6: in the two-day witness run, day 0 nets a PnL of
`-0.10` (the flat session's round-trip fees), and the day-1 simulation
call is parameterized with capital `100000 - 0.10` — the initial capital
compounded with the prior day's PnL, as the theorem states. -/
theorem dp_capital_compounding_witness :
    (⟨1, "A", 100000 + -(1/10)⟩ : SimCall) ∈
      (run_daily_picks_backtest w_registry w_snapshots w_source 0 1 "momentum_scalp"
        100000 3 1 15).sim_log ∧
    (⟨1, "A", 100000 + -(1/10)⟩ : SimCall).capital = 100000
      + sum_pnl ((run_daily_picks_backtest w_registry w_snapshots w_source 0 1
          "momentum_scalp" 100000 3 1 15).all_trades.filter
            (trade_before (⟨1, "A", 100000 + -(1/10)⟩ : SimCall).date)) := by
  have hdays : get_trading_days 0 1 = [0, 1] := by decide
  have hlog : (run_daily_picks_backtest w_registry w_snapshots w_source 0 1
      "momentum_scalp" 100000 3 1 15).sim_log
      = [⟨0, "A", 100000⟩, ⟨1, "A", 100000 + -(1/10)⟩] := by
    rw [run_daily_picks_sim_log w_registry w_snapshots w_source 0 1 "momentum_scalp"
      100000 3 1 15 w_algo_buy 0 [1] rfl hdays]
    exact w_log_eval
  have hmem : (⟨1, "A", 100000 + -(1/10)⟩ : SimCall) ∈
      (run_daily_picks_backtest w_registry w_snapshots w_source 0 1 "momentum_scalp"
        100000 3 1 15).sim_log := by
    rw [hlog]
    exact List.mem_cons_of_mem _ (List.mem_singleton_self _)
  exact ⟨hmem, (dp_capital_compounding w_registry w_snapshots w_source 0 1
    "momentum_scalp" 100000 3 1 15).1 _ hmem⟩

lemma run_backtest_loop_calls (algo : AlgoEval) (groww_symbol : String)
    (initial_capital risk_percent : ℚ) (max_positions : ℕ)
    (candles : List Candle) (total_bars : ℕ) :
    ∀ (rest : List Candle) (i : ℕ) (s : BTState),
      i + rest.length ≤ candles.length →
      (∀ e ∈ s.calls, e.bar < candles.length ∧ e.history = candles.take (e.bar + 1)) →
      ∀ e ∈ (run_backtest_loop algo groww_symbol initial_capital risk_percent
          max_positions candles total_bars i rest s).calls,
        e.bar < candles.length ∧ e.history = candles.take (e.bar + 1) := by
  intro rest
  induction rest with
  | nil => intro i s _ h; simpa [run_backtest_loop] using h
  | cons c cs ih =>
    intro i s hlen h
    rw [run_backtest_loop]
    apply ih
    · simp at hlen
      omega
    obtain ⟨tr, ev, cl, _, _, _, _, _, _, hcl, hclp⟩ :=
      run_backtest_step_shape algo groww_symbol initial_capital risk_percent
        max_positions candles total_bars i c s
    rw [hcl]
    intro e he
    rcases List.mem_append.mp he with hh | hh
    · exact h e hh
    · obtain ⟨hb, hh, _⟩ := hclp e hh
      refine ⟨?_, by rw [hb, hh]⟩
      rw [hb]
      simp at hlen
      omega

lemma dp_sim_loop_calls (algo : AlgoEval) (capital risk_percent : ℚ)
    (symbol : String) (cand : Candidate) (date max_trade_duration_minutes : ℕ)
    (candles : List Candle) :
    ∀ (rest : List Candle) (i : ℕ) (s : SimState),
      i + rest.length ≤ candles.length →
      (∀ e ∈ s.calls, e.bar < candles.length ∧ e.history = candles.take (e.bar + 1)) →
      ∀ e ∈ (dp_sim_loop algo capital risk_percent symbol cand date
          max_trade_duration_minutes candles i rest s).calls,
        e.bar < candles.length ∧ e.history = candles.take (e.bar + 1) := by
  intro rest
  induction rest with
  | nil => intro i s _ h; simpa [dp_sim_loop] using h
  | cons c cs ih =>
    intro i s hlen h
    rw [dp_sim_loop]
    apply ih
    · simp at hlen
      omega
    unfold dp_sim_step
    obtain ⟨_, _, hec⟩ :=
      dp_sim_exit_phase_shape max_trade_duration_minutes date symbol c s
    obtain ⟨_, cl, hcl, hclp⟩ := dp_sim_entry_phase_shape algo capital risk_percent
      symbol cand candles i c
      (dp_sim_exit_phase max_trade_duration_minutes date symbol c s)
    rw [hcl, hec.2]
    intro e he
    rcases List.mem_append.mp he with hh | hh
    · exact h e hh
    · obtain ⟨hb, hh⟩ := hclp e hh
      refine ⟨?_, by rw [hb, hh]⟩
      rw [hb]
      simp at hlen
      omega

/-- Claim C8: in both engines, every strategy-evaluator invocation at
bar `i` receives exactly the prefix `candles[0..i]`: the logged history
is `candles.take (i+1)`, its length is `i + 1`, and every candle it
contains sits at an index `j ≤ i` of the full series — the evaluator
never sees a later bar. -/
theorem strategy_no_lookahead (algo : AlgoEval) (groww_symbol : String)
    (initial_capital risk_percent : ℚ) (max_positions : ℕ)
    (cand : Candidate) (date max_trade_duration_minutes : ℕ) (capital : ℚ)
    (candles : List Candle) :
    (∀ e ∈ (bt_sim algo groww_symbol initial_capital risk_percent max_positions
        candles).calls,
      e.history = candles.take (e.bar + 1) ∧ e.history.length = e.bar + 1 ∧
      ∀ j c, e.history.get? j = some c → j ≤ e.bar ∧ candles.get? j = some c) ∧
    (∀ e ∈ (simulate_symbol_state algo cand date max_trade_duration_minutes candles
        capital risk_percent).calls,
      e.history = candles.take (e.bar + 1) ∧ e.history.length = e.bar + 1 ∧
      ∀ j c, e.history.get? j = some c → j ≤ e.bar ∧ candles.get? j = some c) := by
  have expand : ∀ e : EvalCall, e.bar < candles.length →
      e.history = candles.take (e.bar + 1) →
      e.history = candles.take (e.bar + 1) ∧ e.history.length = e.bar + 1 ∧
      ∀ j c, e.history.get? j = some c → j ≤ e.bar ∧ candles.get? j = some c := by
    intro e hb hh
    refine ⟨hh, ?_, ?_⟩
    · rw [hh, List.length_take]
      omega
    · intro j c hjc
      rw [hh, List.get?_take_eq_if] at hjc
      split at hjc
      · next hjb => exact ⟨by omega, hjc⟩
      · exact Option.noConfusion hjc
  constructor
  · intro e he
    obtain ⟨hb, hh⟩ := run_backtest_loop_calls algo groww_symbol initial_capital
      risk_percent max_positions candles candles.length candles 0 init_bt_state
      (by simp) (by intro e' he'; simp [init_bt_state] at he') e he
    exact expand e hb hh
  · intro e he
    unfold simulate_symbol_state at he
    split at he
    · simp at he
    · obtain ⟨hb, hh⟩ := dp_sim_loop_calls algo capital risk_percent cand.symbol cand
        date max_trade_duration_minutes candles candles 0 ⟨none, [], []⟩
        (by simp) (by intro e' he'; simp at he') e he
      exact expand e hb hh

set_option maxRecDepth 10000 in
/-- Witness for C8: on the 31-bar witness session both engines log
exactly one evaluator call, at bar 30 with the 31-bar prefix, and the
theorem's conclusions hold for it. -/
theorem strategy_no_lookahead_witness :
    ((⟨30, w_candles.take 31, 100⟩ : EvalCall) ∈
        (bt_sim w_algo_none "A" 100000 1 1 w_candles).calls ∧
      (⟨30, w_candles.take 31, 100⟩ : EvalCall) ∈
        (simulate_symbol_state w_algo_none w_cand 0 15 w_candles 100000 1).calls) ∧
    ((⟨30, w_candles.take 31, 100⟩ : EvalCall).history
        = w_candles.take ((⟨30, w_candles.take 31, 100⟩ : EvalCall).bar + 1) ∧
      (⟨30, w_candles.take 31, 100⟩ : EvalCall).history.length
        = (⟨30, w_candles.take 31, 100⟩ : EvalCall).bar + 1 ∧
      ∀ j c, (⟨30, w_candles.take 31, 100⟩ : EvalCall).history.get? j = some c →
        j ≤ (⟨30, w_candles.take 31, 100⟩ : EvalCall).bar ∧ w_candles.get? j = some c) := by
  have m1 : (⟨30, w_candles.take 31, 100⟩ : EvalCall) ∈
      (bt_sim w_algo_none "A" 100000 1 1 w_candles).calls := by decide
  have m2 : (⟨30, w_candles.take 31, 100⟩ : EvalCall) ∈
      (simulate_symbol_state w_algo_none w_cand 0 15 w_candles 100000 1).calls := by decide
  have h := strategy_no_lookahead w_algo_none "A" 100000 1 1 w_cand 0 15 100000 w_candles
  exact ⟨⟨m1, m2⟩, h.1 _ m1⟩
